import Mathlib

/-!
Verification model of the trading-system signal processor
(`internal/signals/processor.go`, `internal/database/db.go`,
`internal/database/models.go`, `internal/mt5/client.go`).

Modelling conventions:
* Go `float64` price/volume fields are modelled as exact rationals (`ℚ`);
  the code only ever compares, halves and rounds these values to 8 decimal
  places, so the rational idealisation tracks the numeric behaviour the
  claims are about.
* Go pointers that encode optionality (`*float64`, `*int64`, `*int`) are
  modelled as `Option`.
* Database rows are modelled as in-memory lists; each single-statement
  operation (`CreateSignal`, `CreateTrade`, `UpdateTradeStatus`,
  `MarkSignalProcessed`, the `SELECT` filters) becomes a pure function on a
  `SysState`.  Timestamps (`created_at`, `updated_at`, `closed_at`,
  `processed_at`) and the opaque `mt5_response` audit blob are not modelled:
  no claim mentions them and they read the wall clock.
* The MT5 bridge is an external service; its answers for one processing
  step are an oracle value (`BridgeEnv`) passed to the step.  Network and
  retry behaviour collapses to `Option`: `none` models a transport-level
  error (the Go client returns `err != nil` after its retries), `some r`
  models a decoded response `r` (which may still have `success = false`).
-/

/-- Decoded TradingView webhook payload (`database.TradingViewWebhook`).
The `message` field and the flexible raw `timestamp` are not modelled:
`parseTimestamp` only produces an audit string (falling back to the wall
clock), which no claim mentions. -/
structure TVWebhook where
  ticker : String
  action : String
  price : Option ℚ := none
  entry : Option ℚ := none
  stopLoss : Option ℚ := none
  takeProfit : Option ℚ := none
  tp1 : Option ℚ := none
  tp2 : Option ℚ := none
  volume : Option ℚ := none
  deriving DecidableEq, Repr

/-- A stored signal row (`database.Signal`).  `payload` is `some w` when the
stored payload bytes unmarshal into a `TradingViewWebhook` `w`, and `none`
when they do not (processing then fails at `json.Unmarshal`). -/
structure Signal where
  id : Nat
  source : String
  symbol : String
  signalType : String
  price : Option ℚ := none
  stopLoss : Option ℚ := none
  takeProfit : Option ℚ := none
  tp1 : Option ℚ := none
  tp2 : Option ℚ := none
  sl1 : Option ℚ := none
  sl2 : Option ℚ := none
  payload : Option TVWebhook := none
  processed : Bool := false
  deriving DecidableEq, Repr

/-- A stored trade row (`database.Trade`).  `profit_loss`, `commission` and
`swap` are non-nullable columns with default 0. -/
structure Trade where
  id : Nat
  signalId : Option Nat := none
  parentSignalId : Option Nat := none
  parentTradeId : Option Nat := none
  tradeType : String
  symbol : String
  orderType : String
  direction : String
  volume : ℚ
  entryPrice : Option ℚ := none
  currentPrice : Option ℚ := none
  stopLoss : Option ℚ := none
  takeProfit : Option ℚ := none
  tp1 : Option ℚ := none
  tp2 : Option ℚ := none
  sl1 : Option ℚ := none
  sl2 : Option ℚ := none
  status : String
  mt5Ticket : Option Int := none
  profitLoss : ℚ := 0
  commission : ℚ := 0
  swap : ℚ := 0
  deriving DecidableEq, Repr

/-- `database.CreateSignalRequest` (JSON path; the pipe-delimited path is
modelled separately at string level, see `parseSimpleFormat`). -/
structure CreateSignalRequest where
  source : String
  symbol : String
  signalType : String
  price : Option ℚ := none
  stopLoss : Option ℚ := none
  takeProfit : Option ℚ := none
  tp1 : Option ℚ := none
  tp2 : Option ℚ := none
  sl1 : Option ℚ := none
  sl2 : Option ℚ := none
  payload : Option TVWebhook := none
  deriving DecidableEq, Repr

/-- `database.CreateTradeRequest`. -/
structure CreateTradeRequest where
  signalId : Option Nat := none
  parentSignalId : Option Nat := none
  parentTradeId : Option Nat := none
  tradeType : String
  symbol : String
  orderType : String
  direction : String
  volume : ℚ
  entryPrice : Option ℚ := none
  stopLoss : Option ℚ := none
  takeProfit : Option ℚ := none
  tp1 : Option ℚ := none
  tp2 : Option ℚ := none
  sl1 : Option ℚ := none
  sl2 : Option ℚ := none
  deriving DecidableEq, Repr

/-- `database.UpdateTradeStatusRequest`: `status` is required, every other
field is only written when provided (`db.UpdateTradeStatus` builds its `SET`
clause dynamically).  The opaque `mt5_response` blob is not modelled. -/
structure UpdateTradeStatusRequest where
  status : String
  mt5Ticket : Option Int := none
  entryPrice : Option ℚ := none
  currentPrice : Option ℚ := none
  profitLoss : Option ℚ := none
  commission : Option ℚ := none
  swap : Option ℚ := none
  deriving DecidableEq, Repr

/-- `mt5.TradeResponse`, restricted to the fields the processor reads on the
entry-submission and close paths (`success`, `ticket`, `price`,
`commission`; plus `profit`/`swap` which the close path only logs). -/
structure TradeResponse where
  success : Bool
  ticket : Int := 0
  price : ℚ := 0
  commission : ℚ := 0
  profit : ℚ := 0
  swap : ℚ := 0
  deriving DecidableEq, Repr

/-- `mt5` response to `ModifyPosition` as read by `executeTPTrade`
(`success`, `tp_order_ticket`, `commission`, plus an error message that is
only logged). -/
structure ModifyResponse where
  success : Bool
  tpOrderTicket : Int := 0
  commission : ℚ := 0
  deriving DecidableEq, Repr

/-- `mt5.PositionInfo`, restricted to the fields `syncPositionsFromMT5`
reads. -/
structure PositionInfo where
  ticket : Int
  symbol : String := ""
  currentPrice : ℚ := 0
  profit : ℚ := 0
  commission : ℚ := 0
  swap : ℚ := 0
  deriving DecidableEq, Repr

/-- `mt5.OrderInfo`, restricted to the fields `syncPositionsFromMT5`
reads. -/
structure OrderInfo where
  ticket : Int
  symbol : String := ""
  price : ℚ := 0
  deriving DecidableEq, Repr

/-- The risk-configuration fields the processor reads
(`config.Risk.EnableRiskChecks`, `config.Risk.MaxPositionSize`). -/
structure RiskConfig where
  enableRiskChecks : Bool
  maxPositionSize : ℚ
  deriving DecidableEq, Repr

/-- Bridge oracle for one signal-processing step: the answers the external
MT5 bridge gives to the calls the step makes, in call order.  `riskOk`
abstracts the outcome of `validateRiskParametersFromSignal` (which depends
on the bridge's position count or the open-trade count).  `none` for a
response models a transport-level error. -/
structure BridgeEnv where
  connected : Bool
  riskOk : Bool := true
  entryResp : Option TradeResponse := none
  tp1PosCheck : Bool := false
  tp1Resp : Option ModifyResponse := none
  tp2PosCheck : Bool := false
  tp2Resp : Option ModifyResponse := none
  closeResp : Int → Option TradeResponse := fun _ => none

/-- The durable store: the `signals` and `trades` tables plus their serial
id sequences. -/
structure SysState where
  signals : List Signal := []
  trades : List Trade := []
  nextSignalId : Nat := 0
  nextTradeId : Nat := 0

/-- The empty database. -/
def initState : SysState := {}

/-! ### Database operations (`internal/database/db.go`) -/

/-- One optional column of an update request: written when provided,
otherwise the stored value is kept. -/
def patchOpt (new old : Option α) : Option α :=
  match new with
  | some v => some v
  | none => old

/-- Apply an `UpdateTradeStatusRequest` to one trade row: the `SET` clause
built by `db.UpdateTradeStatus` (status always written, optional fields
written only when provided; `id`, linkage, volume and price levels are never
part of the clause). -/
def applyUpd (u : UpdateTradeStatusRequest) (t : Trade) : Trade :=
  { t with
    status := u.status
    mt5Ticket := patchOpt u.mt5Ticket t.mt5Ticket
    entryPrice := patchOpt u.entryPrice t.entryPrice
    currentPrice := patchOpt u.currentPrice t.currentPrice
    profitLoss := (u.profitLoss.getD t.profitLoss)
    commission := (u.commission.getD t.commission)
    swap := (u.swap.getD t.swap) }

/-- The `mt5_ticket BIGINT UNIQUE` column constraint of the `trades` table
(schema, `part_003`; no migration alters it): an `UPDATE` whose `SET` clause
writes `mt5_ticket = k` fails with a unique violation when a different row
already carries ticket `k`.  (`CreateTrade` inserts leave the column `NULL`,
which the constraint permits any number of times.) -/
def ticketConflict (trades : List Trade) (tradeId : Nat)
    (u : UpdateTradeStatusRequest) : Bool :=
  match u.mt5Ticket with
  | none => false
  | some k => trades.any fun t => ¬ t.id = tradeId ∧ t.mt5Ticket = some k

/-- The row effect of a non-failing `UPDATE trades SET ... WHERE id = $n`. -/
def updateRows (st : SysState) (tradeId : Nat) (u : UpdateTradeStatusRequest) : SysState :=
  { st with trades := st.trades.map fun t => if t.id = tradeId then applyUpd u t else t }

/-- `db.UpdateTradeStatus`: `UPDATE trades SET ... WHERE id = $n`.  When the
`SET` clause would violate the ticket-uniqueness constraint the statement
fails and the table is unchanged (`db.UpdateTradeStatus` then returns the
execution error; callers that consult it test `ticketConflict`). -/
def updateTradeStatus (st : SysState) (tradeId : Nat) (u : UpdateTradeStatusRequest) : SysState :=
  if ticketConflict st.trades tradeId u then st else updateRows st tradeId u

/-- `db.CreateTrade`: insert a new row; `status` defaults to `'pending'` and
`mt5_ticket` to `NULL` (schema defaults). -/
def createTrade (st : SysState) (req : CreateTradeRequest) : SysState × Trade :=
  let t : Trade :=
    { id := st.nextTradeId
      signalId := req.signalId
      parentSignalId := req.parentSignalId
      parentTradeId := req.parentTradeId
      tradeType := req.tradeType
      symbol := req.symbol
      orderType := req.orderType
      direction := req.direction
      volume := req.volume
      entryPrice := req.entryPrice
      stopLoss := req.stopLoss
      takeProfit := req.takeProfit
      tp1 := req.tp1
      tp2 := req.tp2
      sl1 := req.sl1
      sl2 := req.sl2
      status := "pending" }
  ({ st with trades := st.trades ++ [t], nextTradeId := st.nextTradeId + 1 }, t)

/-- `db.CreateSignal`: insert a new row with `processed = false`. -/
def createSignalOp (st : SysState) (req : CreateSignalRequest) : SysState :=
  let s : Signal :=
    { id := st.nextSignalId
      source := req.source
      symbol := req.symbol
      signalType := req.signalType
      price := req.price
      stopLoss := req.stopLoss
      takeProfit := req.takeProfit
      tp1 := req.tp1
      tp2 := req.tp2
      sl1 := req.sl1
      sl2 := req.sl2
      payload := req.payload
      processed := false }
  { st with signals := st.signals ++ [s], nextSignalId := st.nextSignalId + 1 }

/-- `db.MarkSignalProcessed`: `UPDATE signals SET processed = true WHERE id`. -/
def markSignalProcessed (st : SysState) (signalId : Nat) : SysState :=
  { st with
    signals := st.signals.map fun s =>
      if s.id = signalId then { s with processed := true } else s }

/-- `db.GetUnprocessedSignals`: `WHERE processed = false`. -/
def getUnprocessedSignals (st : SysState) : List Signal :=
  st.signals.filter fun s => s.processed = false

/-- `db.GetOpenTrades`: `WHERE status IN ('pending', 'filled', 'partial')`. -/
def isOpenStatus (s : String) : Bool :=
  s = "pending" || s = "filled" || s = "partial"

/-- `db.GetOpenTrades`. -/
def getOpenTrades (st : SysState) : List Trade :=
  st.trades.filter fun t => isOpenStatus t.status

/-- `db.GetTradeByID` (first row with the id; ids are a primary key). -/
def getTradeByID (l : List Trade) (tradeId : Nat) : Option Trade :=
  l.find? fun t => t.id = tradeId

/-- `db.GetTradeByID` on the state. -/
def getTradeByIDState (st : SysState) (tradeId : Nat) : Option Trade :=
  getTradeByID st.trades tradeId

/-- Look up a stored signal row by id. -/
def getSignalByID (st : SysState) (signalId : Nat) : Option Signal :=
  st.signals.find? fun s => s.id = signalId

/-! ### Execution engine (`internal/signals/processor.go`) -/

/-- `calculatePositionSize`: the requested volume when positive and within
`MaxPositionSize`, else the hard-coded default 0.10 lots. -/
def calculatePositionSize (cfg : RiskConfig) (requestedVolume : ℚ) : ℚ :=
  if 0 < requestedVolume ∧ requestedVolume ≤ cfg.maxPositionSize then requestedVolume
  else 1 / 10

/-- `getOppositeDirection`. -/
def getOppositeDirection (direction : String) : String :=
  if direction = "buy" then "sell" else "buy"

/-- The `CreateTradeRequest` built by `createEntryTrade`. -/
def entryTradeReq (sig : Signal) (volume : ℚ) : CreateTradeRequest :=
  { signalId := some sig.id
    parentSignalId := some sig.id
    tradeType := "entry"
    symbol := sig.symbol
    orderType := "market"
    direction := sig.signalType
    volume := volume
    entryPrice := sig.price
    stopLoss := sig.stopLoss
    takeProfit := sig.takeProfit
    tp1 := sig.tp1
    tp2 := sig.tp2
    sl1 := sig.sl1
    sl2 := sig.sl2 }

/-- The `CreateTradeRequest` built by `createTPTrade`. -/
def tpTradeReq (sig : Signal) (parentTradeId : Nat) (tpType : String)
    (tpPrice volume : ℚ) : CreateTradeRequest :=
  { signalId := some sig.id
    parentSignalId := some sig.id
    parentTradeId := some parentTradeId
    tradeType := tpType
    symbol := sig.symbol
    orderType := "limit"
    direction := getOppositeDirection sig.signalType
    volume := volume
    entryPrice := some tpPrice
    stopLoss := sig.stopLoss
    takeProfit := some tpPrice
    tp1 := sig.tp1
    tp2 := sig.tp2
    sl1 := sig.sl1
    sl2 := sig.sl2 }

/-- The `updateReq` built by `executeEntryTrade` from the decoded bridge
response: `success` ⇒ `filled` (ticket recorded only when non-zero, fill
price recorded, commission recorded when non-zero), otherwise `rejected`. -/
def entryUpd (r : TradeResponse) : UpdateTradeStatusRequest :=
  if r.success then
    { status := "filled"
      mt5Ticket := if r.ticket ≠ 0 then some r.ticket else none
      entryPrice := some r.price
      commission := if r.commission ≠ 0 then some r.commission else none }
  else { status := "rejected" }

/-- `executeEntryTrade`: submit the entry market order.  `Except.error ()`
models the Go function returning a non-nil error: bridge unavailable,
transport failure, or the final `db.UpdateTradeStatus` failing (its error is
returned directly, and a ticket-setting update fails on a unique violation
of `mt5_ticket`); otherwise the row is updated by `entryUpd` and the Go
function returns nil whether or not the response said `success`. -/
def executeEntryTrade (env : BridgeEnv) (st : SysState) (trade : Trade) :
    Except Unit SysState :=
  if env.connected = false then .error ()
  else
    match env.entryResp with
    | none => .error ()
    | some r =>
      if ticketConflict st.trades trade.id (entryUpd r) then .error ()
      else .ok (updateTradeStatus st trade.id (entryUpd r))

/-- The `updateReq` built by `executeTPTrade` from the decoded
`ModifyPosition` response: on `success` the TP row is set `pending` and
given the parent position's ticket as reference, otherwise `rejected`. -/
def tpUpd (m : ModifyResponse) (ticket : Int) : UpdateTradeStatusRequest :=
  if m.success then
    { status := "pending"
      mt5Ticket := some ticket
      commission := if m.commission ≠ 0 then some m.commission else none }
  else { status := "rejected" }

/-- `executeTPTrade`: attach a partial take-profit to the parent position.
`Except.error ()` models a non-nil Go error (bridge unavailable, missing
parent linkage or ticket, transport failure of `ModifyPosition`, or the
final `db.UpdateTradeStatus` failing — which the ticket-copying success
update always does when another row, in particular the parent itself, still
carries that ticket, by the `mt5_ticket UNIQUE` constraint); the caller then
marks the TP trade `rejected`.  `posCheck` is the result of
`verifyPositionExists` for the parent ticket, `modResp` the decoded
`ModifyPosition` response. -/
def executeTPTrade (connected : Bool) (posCheck : Bool) (modResp : Option ModifyResponse)
    (st : SysState) (trade : Trade) : Except Unit SysState :=
  if connected = false then .error ()
  else
    match trade.parentTradeId with
    | none => .error ()
    | some pid =>
      match getTradeByIDState st pid with
      | none => .error ()
      | some parentTrade =>
        match parentTrade.mt5Ticket with
        | none => .error ()
        | some ticket =>
          if posCheck = false then
            .ok (updateTradeStatus st trade.id { status := "cancelled" })
          else
            match modResp with
            | none => .error ()
            | some m =>
              if ticketConflict st.trades trade.id (tpUpd m ticket) then .error ()
              else .ok (updateTradeStatus st trade.id (tpUpd m ticket))

/-- One TP-leg block of `processTradingViewSignal`: create the TP trade
(`createTPTradeWithRetry`; the store is modelled as reliable, so the insert
succeeds on the first attempt) and execute it, marking it `rejected` when
execution returns an error. -/
def runTPLeg (connected : Bool) (posCheck : Bool) (modResp : Option ModifyResponse)
    (st : SysState) (sig : Signal) (parentTradeId : Nat) (tpType : String)
    (tpPrice volume : ℚ) : SysState :=
  let created := createTrade st (tpTradeReq sig parentTradeId tpType tpPrice volume)
  match executeTPTrade connected posCheck modResp created.1 created.2 with
  | .error _ => updateTradeStatus created.1 created.2.id { status := "rejected" }
  | .ok st2 => st2

/-- One guarded TP-leg block of `processTradingViewSignal`: the leg runs
only when the signal's TP level is set and positive
(`signal.TPn != nil && *signal.TPn > 0`). -/
def runTPLegIfSet (connected posCheck : Bool) (modResp : Option ModifyResponse)
    (st : SysState) (sig : Signal) (parentTradeId : Nat) (tpType : String)
    (otp : Option ℚ) (volume : ℚ) : SysState :=
  match otp with
  | some p =>
    if 0 < p then
      runTPLeg connected posCheck modResp st sig parentTradeId tpType p volume
    else st
  | none => st

/-- Outcome of `closeTradeInMT5` for one trade: `fault` models the nil
pointer dereference of `*trade.MT5Ticket` (no nil check precedes it),
`err` a non-nil Go error (bridge unavailable or transport failure of
`ClosePosition`), `ok` a decoded response (whose contents are only
logged). -/
inductive CloseOutcome where
  | fault
  | err
  | ok
  deriving DecidableEq, Repr

/-- `closeTradeInMT5`, as an outcome classifier. -/
def closeTradeInMT5 (env : BridgeEnv) (trade : Trade) : CloseOutcome :=
  if env.connected = false then .err
  else
    match trade.mt5Ticket with
    | none => .fault
    | some ticket =>
      match env.closeResp ticket with
      | none => .err
      | some _ => .ok

/-- The trades `handleCloseSignal` selects: open trades with the signal's
symbol and status `filled`. -/
def tradesToClose (st : SysState) (sig : Signal) : List Trade :=
  (getOpenTrades st).filter fun t => t.symbol = sig.symbol && t.status = "filled"

/-- The per-trade loop of `handleCloseSignal`: on a close error the trade is
skipped (`continue`), on success its status is set to `closed` (status-only
update: no P&L, commission or swap is recorded).  A fault (nil ticket
dereference) panics: no further update happens, and the second component
reports it. -/
def closeLoop (env : BridgeEnv) : List Trade → SysState → SysState × Bool
  | [], st => (st, false)
  | t :: rest, st =>
    match closeTradeInMT5 env t with
    | .fault => (st, true)
    | .err => closeLoop env rest st
    | .ok => closeLoop env rest (updateTradeStatus st t.id { status := "closed" })

/-- `handleCloseSignal`. -/
def handleCloseSignal (st : SysState) (sig : Signal) (env : BridgeEnv) : SysState × Bool :=
  closeLoop env (tradesToClose st sig) st

/-- The buy/sell branch of `processTradingViewSignal`, from the MT5
connectivity check onwards.  Boolean result: `true` when the Go function
returns a non-nil error.  Note that after `executeEntryTrade` returns nil
the code proceeds to the TP legs whether or not the bridge accepted the
entry (`response.Success` is not re-checked by the caller). -/
def processBuySell (cfg : RiskConfig) (env : BridgeEnv) (st : SysState)
    (sig : Signal) (w : TVWebhook) : SysState × Bool :=
  if env.connected = false then (st, true)
  else
    let requestedVolume := w.volume.getD 0
    if cfg.enableRiskChecks ∧ env.riskOk = false then (st, true)
    else
      let totalVolume := calculatePositionSize cfg requestedVolume
      let created := createTrade st (entryTradeReq sig totalVolume)
      match executeEntryTrade env created.1 created.2 with
      | .error _ =>
        (updateTradeStatus created.1 created.2.id { status := "rejected" }, true)
      | .ok st2 =>
        let st3 := runTPLegIfSet env.connected env.tp1PosCheck env.tp1Resp st2 sig
          created.2.id ("tp1") sig.tp1 (totalVolume / 2)
        let st4 := runTPLegIfSet env.connected env.tp2PosCheck env.tp2Resp st3 sig
          created.2.id ("tp2") sig.tp2 (totalVolume / 2)
        (st4, false)

/-- `processTradingViewSignal` (and its caller `processSignal`): unsupported
source or an unparseable payload is an error; `close` signals go to
`handleCloseSignal` (which returns nil; a nil-ticket panic is recorded but
the post-panic state is over-approximated by the updates already made);
buy/sell signals go to the entry/TP pipeline. -/
def processSignal (cfg : RiskConfig) (env : BridgeEnv) (st : SysState)
    (sig : Signal) : SysState × Bool :=
  if sig.source ≠ "tradingview" then (st, true)
  else
    match sig.payload with
    | none => (st, true)
    | some w =>
      if sig.signalType = "close" then ((handleCloseSignal st sig env).1, false)
      else processBuySell cfg env st sig w

/-- One iteration of the `processUnprocessedSignals` loop body for one
signal: process it, then always mark it processed (the mark happens whether
or not processing returned an error). -/
def processOneSignal (cfg : RiskConfig) (env : BridgeEnv) (st : SysState)
    (sig : Signal) : SysState :=
  markSignalProcessed (processSignal cfg env st sig).1 sig.id

/-! ### Reconciliation loop (`syncPositionsFromMT5`) -/

/-- The position lookup map built by `syncPositionsFromMT5` (`map[int64]`
insertion: a later entry with the same ticket overwrites an earlier one). -/
def posLookup (positions : List PositionInfo) (ticket : Int) : Option PositionInfo :=
  positions.foldl (fun acc p => if p.ticket = ticket then some p else acc) none

/-- The pending-order lookup map built by `syncPositionsFromMT5`. -/
def ordLookup (orders : List OrderInfo) (ticket : Int) : Option OrderInfo :=
  orders.foldl (fun acc o => if o.ticket = ticket then some o else acc) none

/-- The update issued for a trade matching a live position. -/
def posUpd (pos : PositionInfo) : UpdateTradeStatusRequest :=
  { status := "filled"
    currentPrice := some pos.currentPrice
    profitLoss := some pos.profit
    commission := some pos.commission
    swap := some pos.swap }

/-- The update issued for a trade matching a pending order (the working
price is refreshed only when positive). -/
def ordUpd (o : OrderInfo) : UpdateTradeStatusRequest :=
  { status := "pending"
    entryPrice := if 0 < o.price then some o.price else none }

/-- The effect of one reconciliation cycle on one trade row, paired with the
number of `UpdateTradeStatus` writes it issues (0 or 1).  Non-open trades
are not in the `GetOpenTrades` snapshot; open trades without a ticket are
skipped; a live-position match refreshes `filled` status and financials; a
pending-order match keeps `pending`; otherwise a previously `filled` trade
becomes `closed` and a previously `pending` one becomes `cancelled` (a
`partial` trade is left alone). -/
def syncOne (positions : List PositionInfo) (orders : List OrderInfo) (t : Trade) :
    Trade × Nat :=
  if isOpenStatus t.status = false then (t, 0)
  else
    match t.mt5Ticket with
    | none => (t, 0)
    | some ticket =>
      match posLookup positions ticket with
      | some pos => (applyUpd (posUpd pos) t, 1)
      | none =>
        match ordLookup orders ticket with
        | some o => (applyUpd (ordUpd o) t, 1)
        | none =>
          if t.status = "filled" then (applyUpd { status := "closed" } t, 1)
          else if t.status = "pending" then (applyUpd { status := "cancelled" } t, 1)
          else (t, 0)

/-- One `syncPositionsFromMT5` cycle over the trades table: the updated
table and the total number of trade-row writes.  Each open trade appears
once in the `GetOpenTrades` snapshot and every update is keyed by its
(unique) row id, so the cycle acts row-wise. -/
def syncTrades (trades : List Trade) (positions : List PositionInfo)
    (orders : List OrderInfo) : List Trade × Nat :=
  (trades.map fun t => (syncOne positions orders t).1,
   (trades.map fun t => (syncOne positions orders t).2).sum)

/-- `syncPositionsFromMT5` on the state: skipped entirely when the bridge is
unavailable (or when either bridge query fails, which leaves the state
equally untouched). -/
def syncPositionsFromMT5 (st : SysState) (connected : Bool)
    (positions : List PositionInfo) (orders : List OrderInfo) : SysState :=
  if connected then { st with trades := (syncTrades st.trades positions orders).1 }
  else st

/-! ### Payload normalisation (`parseTradingViewWebhook`, `parseSimpleFormat`) -/

/-- The rounding applied to every accepted price:
`float64(int(v*100000000+0.5)) / 100000000`.  Go's `int` conversion
truncates toward zero; every call site has `v > 0`, where truncation equals
`⌊·⌋` — provided `v*1e8 + 0.5` fits in `int64`.  Above that
(`v > int64SafePrice`, still below the `validatePrice` ceiling) the Go
conversion overflows and its result is implementation-defined, so this
model (and every theorem quantifying over rounded values) is scoped to
prices at most `int64SafePrice`. -/
def round8 (q : ℚ) : ℚ :=
  (⌊q * 100000000 + 1 / 2⌋ : ℚ) / 100000000

/-- The magnitude ceiling of `validatePrice` (`DECIMAL(20,8)` storage). -/
def maxDecimalPrice : ℚ := 999999999999.99999999

/-- Cap under which `int(v*100000000 + 0.5)` cannot overflow `int64`: with
`v ≤ 92233720368`, `v*1e8 + 0.5 ≤ 9223372036800000000.5 < 2^63 - 1`
(`9223372036854775807`), with margin far above any `float64` rounding of
the product.  `round8` is a faithful model of the Go expression exactly on
`(0, int64SafePrice]`. -/
def int64SafePrice : ℚ := 92233720368

/-- The `validatePrice` closure of `parseTradingViewWebhook`: `nil` or
non-positive values are dropped (no error), values above the ceiling are a
hard error, accepted values are rounded to 8 decimal places. -/
def validatePrice (price : Option ℚ) : Except Unit (Option ℚ) :=
  match price with
  | none => .ok none
  | some p =>
    if p ≤ 0 then .ok none
    else if maxDecimalPrice < p then .error ()
    else .ok (some (round8 p))

/-- The JSON path of `parseTradingViewWebhook`, applied to a successfully
decoded webhook record: required-field and action validation, price-field
validation (with `entry` taking precedence over `price`), and the
direction-relative TP-ordering check.  The timestamp normalisation and
payload cleaning only rewrite the audit copy of the payload and are not
modelled. -/
def parseTradingViewWebhook (w : TVWebhook) : Except Unit CreateSignalRequest :=
  if w.ticker = "" then .error ()
  else if w.action = "" then .error ()
  else if w.action ≠ "buy" ∧ w.action ≠ "sell" ∧ w.action ≠ "close" then .error ()
  else do
    let price ← match w.entry with
      | some _ => validatePrice w.entry
      | none => validatePrice w.price
    let stopLoss ← validatePrice w.stopLoss
    let takeProfit ← validatePrice w.takeProfit
    let tp1 ← validatePrice w.tp1
    let tp2 ← validatePrice w.tp2
    let req : CreateSignalRequest :=
      { source := "tradingview"
        symbol := w.ticker
        signalType := w.action
        price := price
        stopLoss := stopLoss
        takeProfit := takeProfit
        tp1 := tp1
        tp2 := tp2
        payload := some w }
    match tp1, tp2 with
    | some a, some b =>
      if w.action = "buy" ∧ b ≤ a then .error ()
      else if w.action = "sell" ∧ a ≤ b then .error ()
      else .ok req
    | _, _ => .ok req

/-- Digit run to a natural number. -/
def digitsToNat (ds : List Char) : Nat :=
  ds.foldl (fun n c => 10 * n + (c.toNat - 48)) 0

/-- Largest finite `float64` value, `2^1024 - 2^971`: beyond it
`strconv.ParseFloat` reports `ErrRange` and the caller treats the field as
invalid. -/
def maxFloat64 : ℚ := 2 ^ 1024 - 2 ^ 971

/-- `strconv.ParseFloat` on the decimal syntax
`[+-]? digits [. digits]? [(e|E) [+-]? digits]?` (with at least one mantissa
digit), read exactly as a rational.  The exotic inputs Go additionally
accepts (`inf`, `nan`, hex floats, underscores) are outside the model; no
claim depends on them. -/
def goParseFloat (s : String) : Option ℚ :=
  let cs := s.data
  let signed : ℚ × List Char :=
    match cs with
    | c :: rest =>
      if c = '-' then (-1, rest) else if c = '+' then (1, rest) else (1, cs)
    | [] => (1, [])
  let intPart := signed.2.takeWhile Char.isDigit
  let afterInt := signed.2.dropWhile Char.isDigit
  let fracSplit : List Char × List Char :=
    match afterInt with
    | c :: rest =>
      if c = '.' then (rest.takeWhile Char.isDigit, rest.dropWhile Char.isDigit)
      else ([], afterInt)
    | [] => ([], [])
  if intPart.isEmpty && fracSplit.1.isEmpty then none
  else
    let expSplit : Option (Int × List Char) :=
      match fracSplit.2 with
      | c :: rest =>
        if c = 'e' || c = 'E' then
          let esigned : Int × List Char :=
            match rest with
            | d :: rest2 =>
              if d = '-' then (-1, rest2) else if d = '+' then (1, rest2) else (1, rest)
            | [] => (1, [])
          let eds := esigned.2.takeWhile Char.isDigit
          if eds.isEmpty then none
          else some (esigned.1 * (digitsToNat eds : Int), esigned.2.dropWhile Char.isDigit)
        else some (0, fracSplit.2)
      | [] => some (0, [])
    match expSplit with
    | none => none
    | some (expVal, rest) =>
      if rest.isEmpty = false then none
      else
        let mant : ℚ :=
          (digitsToNat intPart : ℚ) + (digitsToNat fracSplit.1 : ℚ) / 10 ^ fracSplit.1.length
        let unsc : ℚ := signed.1 * mant
        let v : ℚ :=
          if 0 ≤ expVal then unsc * 10 ^ expVal.toNat else unsc / 10 ^ (-expVal).toNat
        if maxFloat64 < |v| then none else some v

/-- The `parseFloat` closure of `parseSimpleFormat`: empty or `"0"` fields
are dropped without error, unparseable fields are a hard error,
non-positive values are dropped, accepted values are rounded to 8 decimal
places. -/
def parseFloatOpt (s : String) : Except Unit (Option ℚ) :=
  if s = "" || s = "0" then .ok none
  else
    match goParseFloat s with
    | none => .error ()
    | some val =>
      if val ≤ 0 then .ok none
      else .ok (some (round8 val))

/-- The payload string `parseSimpleFormat` stores, byte for byte the
`fmt.Sprintf` template (the numeric field strings are interpolated bare,
the ticker/action/timestamp strings inside quotes). -/
def simplePayload (ticker action entryStr slStr tp1Str tp2Str volumeStr timestampStr :
    String) : String :=
  "\x7b\"ticker\":\"" ++ ticker ++ "\",\"action\":\"" ++ action ++
  "\",\"entry\":" ++ entryStr ++ ",\"stop_loss\":" ++ slStr ++
  ",\"tp1\":" ++ tp1Str ++ ",\"tp2\":" ++ tp2Str ++
  ",\"volume\":" ++ volumeStr ++ ",\"timestamp\":\"" ++ timestampStr ++
  "\",\"format\":\"simple\"\x7d"

/-- The signal-creation request produced by `parseSimpleFormat`
(`database.CreateSignalRequest` with the raw payload string it stores). -/
structure SimpleSignalRequest where
  source : String
  symbol : String
  signalType : String
  price : Option ℚ := none
  stopLoss : Option ℚ := none
  tp1 : Option ℚ := none
  tp2 : Option ℚ := none
  payload : String
  deriving DecidableEq, Repr

/-- `parseSimpleFormat`: the pipe-delimited fallback
`ticker|action|entry|stop_loss|tp1|tp2|volume|timestamp`.  The volume and
timestamp fields are never parsed or validated, only stored in the payload
string. -/
def parseSimpleFormat (data : String) : Except Unit SimpleSignalRequest :=
  match (data.trim).splitOn ("|") with
  | [p0, p1, p2, p3, p4, p5, p6, p7] =>
    let ticker := p0.trim
    let action := p1.trim
    let entryStr := p2.trim
    let slStr := p3.trim
    let tp1Str := p4.trim
    let tp2Str := p5.trim
    let volumeStr := p6.trim
    let timestampStr := p7.trim
    if ticker = "" then .error ()
    else if action = "" then .error ()
    else if action ≠ "buy" ∧ action ≠ "sell" ∧ action ≠ "close" then .error ()
    else do
      let entry ← parseFloatOpt entryStr
      let stopLoss ← parseFloatOpt slStr
      let tp1 ← parseFloatOpt tp1Str
      let tp2 ← parseFloatOpt tp2Str
      let req : SimpleSignalRequest :=
        { source := "tradingview"
          symbol := ticker
          signalType := action
          price := entry
          stopLoss := stopLoss
          tp1 := tp1
          tp2 := tp2
          payload :=
            simplePayload ticker action entryStr slStr tp1Str tp2Str volumeStr
              timestampStr }
      match tp1, tp2 with
      | some a, some b =>
        if action = "buy" ∧ b ≤ a then .error ()
        else if action = "sell" ∧ a ≤ b then .error ()
        else .ok req
      | _, _ => .ok req
  | _ => .error ()

/-! ### JSON well-formedness

`processTradingViewSignal` starts with `json.Unmarshal(signal.Payload, ...)`
and fails the whole signal when the stored payload is not valid JSON, so
the stored payload being valid JSON is a correctness requirement on the
normaliser.  A standard RFC 8259 recogniser over the character list. -/

/-- JSON insignificant whitespace. -/
def jsonWs (c : Char) : Bool :=
  c = ' ' || c = '\t' || c = '\n' || c = '\r'

/-- Skip insignificant whitespace. -/
def skipWs (cs : List Char) : List Char :=
  cs.dropWhile jsonWs

/-- Opening brace character (written by code point to keep it out of
string/character literals). -/
def braceOpen : Char := Char.ofNat 123

/-- Closing brace character. -/
def braceClose : Char := Char.ofNat 125

/-- Consume a literal character sequence. -/
def stripLit : List Char → List Char → Option (List Char)
  | cs, [] => some cs
  | c :: cs, l :: ls => if c = l then stripLit cs ls else none
  | [], _ :: _ => none

/-- Consume the rest of a JSON string (the opening quote already
consumed). -/
def jsonStringRest : List Char → Option (List Char)
  | [] => none
  | c :: rest =>
    if c = '\"' then some rest
    else if c = '\\' then
      match rest with
      | [] => none
      | _ :: rest2 => jsonStringRest rest2
    else jsonStringRest rest

/-- Consume a JSON number. -/
def jsonNumberRest (cs : List Char) : Option (List Char) :=
  let cs1 := match cs with
    | c :: rest => if c = '-' then rest else cs
    | [] => cs
  match cs1 with
  | c :: rest =>
    if c = '0' then jsonNumberFracExp rest
    else if c.isDigit then jsonNumberFracExp (rest.dropWhile Char.isDigit)
    else none
  | [] => none
where
  /-- Optional fraction and exponent. -/
  jsonNumberFracExp (cs : List Char) : Option (List Char) :=
    let afterFrac : Option (List Char) :=
      match cs with
      | c :: rest =>
        if c = '.' then
          match rest with
          | d :: _ => if d.isDigit then some (rest.dropWhile Char.isDigit) else none
          | [] => none
        else some cs
      | [] => some cs
    match afterFrac with
    | none => none
    | some cs2 =>
      match cs2 with
      | c :: rest =>
        if c = 'e' || c = 'E' then
          let rest1 := match rest with
            | d :: rest2 => if d = '-' || d = '+' then rest2 else rest
            | [] => rest
          match rest1 with
          | d :: _ => if d.isDigit then some (rest1.dropWhile Char.isDigit) else none
          | [] => none
        else some cs2
      | [] => some cs2

mutual

/-- Consume one JSON value (fuelled recogniser; the fuel is structural and
chosen larger than the input length at the top entry). -/
def jsonValueRest : Nat → List Char → Option (List Char)
  | 0, _ => none
  | fuel + 1, cs =>
    match skipWs cs with
    | [] => none
    | c :: rest =>
      if c = '\"' then jsonStringRest rest
      else if c = braceOpen then jsonMembersRest fuel rest true
      else if c = '[' then jsonElemsRest fuel rest true
      else if c = 't' then stripLit rest (("rue").data)
      else if c = 'f' then stripLit rest (("alse").data)
      else if c = 'n' then stripLit rest (("ull").data)
      else jsonNumberRest (c :: rest)

/-- Consume object members up to and including the closing brace (`first`
marks that no member has been read yet). -/
def jsonMembersRest : Nat → List Char → Bool → Option (List Char)
  | 0, _, _ => none
  | fuel + 1, cs, first =>
    match skipWs cs with
    | [] => none
    | c :: rest =>
      if c = braceClose then some rest
      else
        let start := if first then c :: rest
          else if c = ',' then rest else []
        if start.isEmpty ∧ (first = false) then
          if c = ',' then none else jsonMemberTail fuel (c :: rest)
        else
          match skipWs start with
          | q :: afterQ =>
            if q = '\"' then
              match jsonStringRest afterQ with
              | none => none
              | some afterKey =>
                match skipWs afterKey with
                | colon :: afterColon =>
                  if colon = ':' then
                    match jsonValueRest fuel afterColon with
                    | none => none
                    | some afterVal => jsonMembersRest fuel afterVal false
                  else none
                | [] => none
            else none
          | [] => none

/-- Helper for a malformed member list (always fails). -/
def jsonMemberTail : Nat → List Char → Option (List Char)
  | _, _ => none

/-- Consume array elements up to and including the closing bracket. -/
def jsonElemsRest : Nat → List Char → Bool → Option (List Char)
  | 0, _, _ => none
  | fuel + 1, cs, first =>
    match skipWs cs with
    | [] => none
    | c :: rest =>
      if c = ']' then some rest
      else
        let start := if first then c :: rest
          else if c = ',' then rest else []
        if start.isEmpty ∧ (first = false) then none
        else
          match jsonValueRest fuel start with
          | none => none
          | some afterVal => jsonElemsRest fuel afterVal false

end

/-- A string is valid JSON when one value consumes it entirely. -/
def jsonValid (s : String) : Bool :=
  match jsonValueRest (s.length + 2) s.data with
  | some rest => skipWs rest = []
  | none => false

/-! ### System transitions and reachable states

One step is either a webhook acceptance (`ProcessWebhook` persisting a
signal), one iteration of the signal-processing loop body (process one
still-unprocessed stored signal against the bridge, then mark it
processed), or one reconciliation cycle.  A full `processUnprocessedSignals`
cycle is the sequential composition of single-signal steps: the snapshot is
taken first, each signal is processed and marked in order, and processing
never inserts or un-marks signals. -/

/-- One system step (the bridge answers are free inputs). -/
inductive Step : SysState → SysState → Prop where
  | createSignal (req : CreateSignalRequest) (st : SysState) :
      Step st (createSignalOp st req)
  | processOne (cfg : RiskConfig) (env : BridgeEnv) (st : SysState) (sig : Signal) :
      sig ∈ st.signals → sig.processed = false →
      Step st (processOneSignal cfg env st sig)
  | sync (connected : Bool) (positions : List PositionInfo) (orders : List OrderInfo)
      (st : SysState) :
      Step st (syncPositionsFromMT5 st connected positions orders)

/-- States reachable from the empty store, under an assumption `P` on the
bridge answers used by each processing step (instantiate `P` with
`fun _ _ => True` for the raw code). -/
inductive ReachP (P : BridgeEnv → SysState → Prop) : SysState → Prop where
  | init : ReachP P initState
  | createSignal {st : SysState} (req : CreateSignalRequest) :
      ReachP P st → ReachP P (createSignalOp st req)
  | processOne {st : SysState} (cfg : RiskConfig) (env : BridgeEnv) (sig : Signal) :
      ReachP P st → sig ∈ st.signals → sig.processed = false → P env st →
      ReachP P (processOneSignal cfg env st sig)
  | sync {st : SysState} (connected : Bool) (positions : List PositionInfo)
      (orders : List OrderInfo) :
      ReachP P st → ReachP P (syncPositionsFromMT5 st connected positions orders)

/-- No assumption on the bridge. -/
def anyBridge : BridgeEnv → SysState → Prop := fun _ _ => True

/-- Environment assumption: a successful entry submission always reports a
non-zero ticket. -/
def nonzeroTicketBridge : BridgeEnv → SysState → Prop := fun env _ =>
  ∀ r, env.entryResp = some r → r.success = true → r.ticket ≠ 0

/-! ### Basic lemmas about the store operations -/

theorem applyUpd_id (u : UpdateTradeStatusRequest) (t : Trade) :
    (applyUpd u t).id = t.id := rfl

theorem applyUpd_parentTradeId (u : UpdateTradeStatusRequest) (t : Trade) :
    (applyUpd u t).parentTradeId = t.parentTradeId := rfl

theorem applyUpd_volume (u : UpdateTradeStatusRequest) (t : Trade) :
    (applyUpd u t).volume = t.volume := rfl

theorem applyUpd_tradeType (u : UpdateTradeStatusRequest) (t : Trade) :
    (applyUpd u t).tradeType = t.tradeType := rfl

theorem applyUpd_status (u : UpdateTradeStatusRequest) (t : Trade) :
    (applyUpd u t).status = u.status := rfl

theorem applyUpd_mt5Ticket_of_none {u : UpdateTradeStatusRequest} (t : Trade)
    (h : u.mt5Ticket = none) : (applyUpd u t).mt5Ticket = t.mt5Ticket := by
  simp [applyUpd, patchOpt, h]

theorem applyUpd_mt5Ticket_of_some {u : UpdateTradeStatusRequest} (t : Trade) {k : Int}
    (h : u.mt5Ticket = some k) : (applyUpd u t).mt5Ticket = some k := by
  simp [applyUpd, patchOpt, h]

theorem ticketConflict_none {u : UpdateTradeStatusRequest} (hu : u.mt5Ticket = none)
    (trades : List Trade) (i : Nat) : ticketConflict trades i u = false := by
  unfold ticketConflict
  rw [hu]

theorem updateTradeStatus_conflict {st : SysState} {i : Nat}
    {u : UpdateTradeStatusRequest} (hc : ticketConflict st.trades i u = true) :
    updateTradeStatus st i u = st := by
  unfold updateTradeStatus
  rw [hc]
  rfl

theorem updateTradeStatus_no_conflict {st : SysState} {i : Nat}
    {u : UpdateTradeStatusRequest} (hc : ticketConflict st.trades i u = false) :
    updateTradeStatus st i u = updateRows st i u := by
  unfold updateTradeStatus
  rw [hc]
  rfl

/-- A ticketless update never violates the ticket constraint. -/
theorem updateTradeStatus_none {st : SysState} {u : UpdateTradeStatusRequest}
    (hu : u.mt5Ticket = none) (i : Nat) :
    updateTradeStatus st i u = updateRows st i u :=
  updateTradeStatus_no_conflict (ticketConflict_none hu st.trades i)

theorem updateRows_signals (st : SysState) (i : Nat) (u : UpdateTradeStatusRequest) :
    (updateRows st i u).signals = st.signals := rfl

theorem updateRows_nextTradeId (st : SysState) (i : Nat)
    (u : UpdateTradeStatusRequest) :
    (updateRows st i u).nextTradeId = st.nextTradeId := rfl

theorem updateTradeStatus_signals (st : SysState) (i : Nat) (u : UpdateTradeStatusRequest) :
    (updateTradeStatus st i u).signals = st.signals := by
  unfold updateTradeStatus
  split <;> rfl

theorem updateTradeStatus_nextTradeId (st : SysState) (i : Nat)
    (u : UpdateTradeStatusRequest) :
    (updateTradeStatus st i u).nextTradeId = st.nextTradeId := by
  unfold updateTradeStatus
  split <;> rfl

theorem markSignalProcessed_trades (st : SysState) (i : Nat) :
    (markSignalProcessed st i).trades = st.trades := rfl

/-- Functions on trade rows that keep the row identity, the parent-trade
linkage and the external ticket (every reconciliation or status-only
update does). -/
def TrackPreserving (f : Trade → Trade) : Prop :=
  ∀ t, (f t).id = t.id ∧ (f t).parentTradeId = t.parentTradeId ∧
    (f t).mt5Ticket = t.mt5Ticket

theorem trackPreserving_patch {u : UpdateTradeStatusRequest} (hu : u.mt5Ticket = none)
    (i : Nat) : TrackPreserving (fun t => if t.id = i then applyUpd u t else t) := by
  intro t
  by_cases h : t.id = i <;>
    simp [h, applyUpd_id, applyUpd_parentTradeId, applyUpd_mt5Ticket_of_none t hu]

theorem trackPreserving_syncOne (positions : List PositionInfo) (orders : List OrderInfo) :
    TrackPreserving (fun t => (syncOne positions orders t).1) := by
  intro t
  unfold syncOne
  by_cases h1 : isOpenStatus t.status = false
  · simp [h1]
  · simp only [h1, if_false]
    match ht : t.mt5Ticket with
    | none => simp [ht]
    | some ticket =>
      simp only
      match posLookup positions ticket with
      | some pos => simp [applyUpd, patchOpt, posUpd, ht]
      | none =>
        simp only
        match ordLookup orders ticket with
        | some o => simp [applyUpd, patchOpt, ordUpd, ht]
        | none =>
          by_cases h2 : t.status = "filled"
          · simp [h2, applyUpd, patchOpt, ht]
          · by_cases h3 : t.status = "pending" <;>
              simp [h2, h3, applyUpd, patchOpt, ht]

/-- Identity of trades with equal ids, from the id-column `Nodup`. -/
theorem trade_eq_of_id_eq {l : List Trade} (hnd : (l.map Trade.id).Nodup)
    {t1 t2 : Trade} (h1 : t1 ∈ l) (h2 : t2 ∈ l) (h : t1.id = t2.id) : t1 = t2 :=
  List.inj_on_of_nodup_map hnd h1 h2 h

theorem getTradeByID_eq_of_mem {l : List Trade} (hnd : (l.map Trade.id).Nodup)
    {t : Trade} (ht : t ∈ l) : getTradeByID l t.id = some t := by
  induction l with
  | nil => cases ht
  | cons a as ih =>
    rw [List.map_cons, List.nodup_cons] at hnd
    rcases List.mem_cons.1 ht with rfl | hmem
    · simp [getTradeByID]
    · have hna : ¬ a.id = t.id := fun hid =>
        hnd.1 (by rw [hid]; exact List.mem_map_of_mem Trade.id hmem)
      have htail := ih hnd.2 hmem
      unfold getTradeByID at htail ⊢
      rw [List.find?_cons_of_neg]
      · exact htail
      · simpa using hna

theorem getTradeByID_mem {l : List Trade} {i : Nat} {t : Trade}
    (h : getTradeByID l i = some t) : t ∈ l ∧ t.id = i := by
  refine ⟨List.mem_of_find?_eq_some h, ?_⟩
  have := List.find?_some h
  simpa using this

theorem createTrade_self_mem (st : SysState) (req : CreateTradeRequest) :
    (createTrade st req).2 ∈ (createTrade st req).1.trades := by
  simp [createTrade]

theorem createTrade_mem_of_mem {st : SysState} {t : Trade} (ht : t ∈ st.trades)
    (req : CreateTradeRequest) : t ∈ (createTrade st req).1.trades := by
  simp [createTrade, ht]

theorem createTrade_snd_parent (st : SysState) (req : CreateTradeRequest) :
    (createTrade st req).2.parentTradeId = req.parentTradeId := rfl

theorem createTrade_snd_ticket (st : SysState) (req : CreateTradeRequest) :
    (createTrade st req).2.mt5Ticket = none := rfl

theorem createTrade_snd_id (st : SysState) (req : CreateTradeRequest) :
    (createTrade st req).2.id = st.nextTradeId := rfl

/-! ### Invariants of the trades table -/

/-- Every `filled` row carries an external ticket (holds under the
non-zero-ticket bridge assumption). -/
def FilledTicketInv (st : SysState) : Prop :=
  ∀ t ∈ st.trades, t.status = "filled" → t.mt5Ticket.isSome

theorem filledTicketInv_init : FilledTicketInv initState := by
  intro t ht
  simp [initState] at ht

/-- The `mt5_ticket BIGINT UNIQUE` constraint as a state property: a
non-null external ticket identifies at most one row. -/
def TicketUniqueInv (st : SysState) : Prop :=
  ∀ t1 ∈ st.trades, ∀ t2 ∈ st.trades, ∀ k : Int,
    t1.mt5Ticket = some k → t2.mt5Ticket = some k → t1.id = t2.id

theorem ticketUniqueInv_init : TicketUniqueInv initState := by
  intro t1 h1
  simp [initState] at h1

theorem tun_map {st : SysState} (h : TicketUniqueInv st) {f : Trade → Trade}
    (hf : TrackPreserving f) : TicketUniqueInv { st with trades := st.trades.map f } := by
  intro t1 h1 t2 h2 k hk1 hk2
  rcases List.mem_map.1 h1 with ⟨s1, hs1, rfl⟩
  rcases List.mem_map.1 h2 with ⟨s2, hs2, rfl⟩
  rw [(hf s1).1, (hf s2).1]
  rw [(hf s1).2.2] at hk1
  rw [(hf s2).2.2] at hk2
  exact h s1 hs1 s2 hs2 k hk1 hk2

theorem tun_updateRows_none {st : SysState} (h : TicketUniqueInv st) (i : Nat)
    {u : UpdateTradeStatusRequest} (hu : u.mt5Ticket = none) :
    TicketUniqueInv (updateRows st i u) :=
  tun_map h (trackPreserving_patch hu i)

/-- The constraint-checked update preserves ticket uniqueness for every
request: a conflicting write is refused, a non-conflicting ticket write
targets the only row that will carry the ticket. -/
theorem tun_update {st : SysState} (h : TicketUniqueInv st) (i : Nat)
    (u : UpdateTradeStatusRequest) : TicketUniqueInv (updateTradeStatus st i u) := by
  cases hc : ticketConflict st.trades i u with
  | true =>
    rw [updateTradeStatus_conflict hc]
    exact h
  | false =>
    rw [updateTradeStatus_no_conflict hc]
    rcases hu : u.mt5Ticket with _ | m
    · exact tun_updateRows_none h i hu
    · have hno : ∀ t ∈ st.trades, ¬ t.id = i → ¬ t.mt5Ticket = some m := by
        intro t ht hne hticket
        have hcontra := hc
        unfold ticketConflict at hcontra
        rw [hu, List.any_eq_false] at hcontra
        have hx := hcontra t ht
        simp [hne, hticket] at hx
      intro t1 h1 t2 h2 k hk1 hk2
      rcases List.mem_map.1 h1 with ⟨s1, hs1, rfl⟩
      rcases List.mem_map.1 h2 with ⟨s2, hs2, rfl⟩
      by_cases c1 : s1.id = i <;> by_cases c2 : s2.id = i
      · rw [if_pos c1, if_pos c2, applyUpd_id, applyUpd_id, c1, c2]
      · rw [if_pos c1] at hk1 ⊢
        rw [if_neg c2] at hk2 ⊢
        rw [applyUpd_mt5Ticket_of_some s1 hu] at hk1
        have hkm : k = m := (Option.some.inj hk1).symm
        rw [hkm] at hk2
        exact absurd hk2 (hno s2 hs2 c2)
      · rw [if_neg c1] at hk1 ⊢
        rw [if_pos c2] at hk2 ⊢
        rw [applyUpd_mt5Ticket_of_some s2 hu] at hk2
        have hkm : k = m := (Option.some.inj hk2).symm
        rw [hkm] at hk1
        exact absurd hk1 (hno s1 hs1 c1)
      · rw [if_neg c1] at hk1 ⊢
        rw [if_neg c2] at hk2 ⊢
        exact h s1 hs1 s2 hs2 k hk1 hk2

theorem tun_createSignal {st : SysState} (h : TicketUniqueInv st)
    (req : CreateSignalRequest) : TicketUniqueInv (createSignalOp st req) :=
  fun t1 h1 t2 h2 => h t1 h1 t2 h2

theorem tun_markProcessed {st : SysState} (h : TicketUniqueInv st) (i : Nat) :
    TicketUniqueInv (markSignalProcessed st i) :=
  fun t1 h1 t2 h2 => h t1 h1 t2 h2

theorem tun_createTrade {st : SysState} (h : TicketUniqueInv st)
    (req : CreateTradeRequest) : TicketUniqueInv (createTrade st req).1 := by
  intro t1 h1 t2 h2 k hk1 hk2
  have h1' : t1 ∈ st.trades ∨ t1 = (createTrade st req).2 := by
    simpa [createTrade] using h1
  have h2' : t2 ∈ st.trades ∨ t2 = (createTrade st req).2 := by
    simpa [createTrade] using h2
  rcases h1' with hm1 | rfl
  · rcases h2' with hm2 | rfl
    · exact h t1 hm1 t2 hm2 k hk1 hk2
    · rw [createTrade_snd_ticket] at hk2
      exact Option.noConfusion hk2
  · rw [createTrade_snd_ticket] at hk1
    exact Option.noConfusion hk1

theorem tun_sync {st : SysState} (h : TicketUniqueInv st) (connected : Bool)
    (positions : List PositionInfo) (orders : List OrderInfo) :
    TicketUniqueInv (syncPositionsFromMT5 st connected positions orders) := by
  unfold syncPositionsFromMT5
  split
  · exact tun_map h (trackPreserving_syncOne positions orders)
  · exact h

/-! ### Shape lemmas for the execution steps -/

/-- A successful `executeEntryTrade` is one non-conflicting status update
keyed on the entry row's id (the guard rejected a conflicting write). -/
theorem executeEntryTrade_ok_shape {env : BridgeEnv} {st st' : SysState} {trade : Trade}
    (hok : executeEntryTrade env st trade = .ok st') :
    ∃ u : UpdateTradeStatusRequest, ticketConflict st.trades trade.id u = false ∧
      st' = updateTradeStatus st trade.id u := by
  unfold executeEntryTrade at hok
  split at hok
  · exact Except.noConfusion hok
  split at hok
  · exact Except.noConfusion hok
  split at hok
  · exact Except.noConfusion hok
  · rename_i hg
    exact ⟨_, by simpa using hg, (Except.ok.inj hok).symm⟩

/-- A successful `executeTPTrade` is one non-conflicting status update keyed
on the TP row's id. -/
theorem executeTPTrade_ok_shape {c pc : Bool} {mr : Option ModifyResponse}
    {st st' : SysState} {trade : Trade}
    (hok : executeTPTrade c pc mr st trade = .ok st') :
    ∃ u : UpdateTradeStatusRequest, ticketConflict st.trades trade.id u = false ∧
      st' = updateTradeStatus st trade.id u := by
  unfold executeTPTrade at hok
  split at hok
  · exact Except.noConfusion hok
  split at hok
  · exact Except.noConfusion hok
  split at hok
  · exact Except.noConfusion hok
  split at hok
  · exact Except.noConfusion hok
  split at hok
  · exact ⟨{ status := "cancelled" }, ticketConflict_none rfl _ _,
      (Except.ok.inj hok).symm⟩
  split at hok
  · exact Except.noConfusion hok
  split at hok
  · exact Except.noConfusion hok
  · rename_i hg
    exact ⟨_, by simpa using hg, (Except.ok.inj hok).symm⟩

/-- `runTPLeg` is: insert the TP row, then one non-conflicting status update
keyed on its id. -/
theorem runTPLeg_shape (c pc : Bool) (mr : Option ModifyResponse) (st : SysState)
    (sig : Signal) (eid : Nat) (ty : String) (price vol : ℚ) :
    ∃ u : UpdateTradeStatusRequest,
      ticketConflict (createTrade st (tpTradeReq sig eid ty price vol)).1.trades
        (createTrade st (tpTradeReq sig eid ty price vol)).2.id u = false ∧
      runTPLeg c pc mr st sig eid ty price vol =
        updateTradeStatus (createTrade st (tpTradeReq sig eid ty price vol)).1
          (createTrade st (tpTradeReq sig eid ty price vol)).2.id u := by
  unfold runTPLeg
  rcases hex : executeTPTrade c pc mr (createTrade st (tpTradeReq sig eid ty price vol)).1
      (createTrade st (tpTradeReq sig eid ty price vol)).2 with e | st2
  · refine ⟨{ status := "rejected" }, ticketConflict_none rfl _ _, ?_⟩
    simp only [hex]
  · obtain ⟨u, hnc, hu⟩ := executeTPTrade_ok_shape hex
    refine ⟨u, hnc, ?_⟩
    simp only [hex]
    exact hu

theorem tun_executeEntryTrade {env : BridgeEnv} {st st' : SysState} {trade : Trade}
    (h : TicketUniqueInv st) (hok : executeEntryTrade env st trade = .ok st') :
    TicketUniqueInv st' := by
  obtain ⟨u, hnc, hu⟩ := executeEntryTrade_ok_shape hok
  rw [hu]
  exact tun_update h _ _

theorem tun_executeTPTrade {c pc : Bool} {mr : Option ModifyResponse}
    {st st' : SysState} {trade : Trade} (h : TicketUniqueInv st)
    (hok : executeTPTrade c pc mr st trade = .ok st') : TicketUniqueInv st' := by
  obtain ⟨u, hnc, hu⟩ := executeTPTrade_ok_shape hok
  rw [hu]
  exact tun_update h _ _

theorem tun_runTPLeg {st : SysState} (h : TicketUniqueInv st) (c pc : Bool)
    (mr : Option ModifyResponse) (sig : Signal) (eid : Nat) (ty : String)
    (price vol : ℚ) : TicketUniqueInv (runTPLeg c pc mr st sig eid ty price vol) := by
  obtain ⟨u, hnc, hu⟩ := runTPLeg_shape c pc mr st sig eid ty price vol
  rw [hu]
  exact tun_update (tun_createTrade h _) _ _

theorem runTPLegIfSet_none (c pc : Bool) (mr : Option ModifyResponse) (st : SysState)
    (sig : Signal) (eid : Nat) (ty : String) (vol : ℚ) :
    runTPLegIfSet c pc mr st sig eid ty none vol = st := rfl

theorem runTPLegIfSet_some_pos {p : ℚ} (hp : 0 < p) (c pc : Bool)
    (mr : Option ModifyResponse) (st : SysState) (sig : Signal) (eid : Nat)
    (ty : String) (vol : ℚ) :
    runTPLegIfSet c pc mr st sig eid ty (some p) vol =
      runTPLeg c pc mr st sig eid ty p vol := by
  simp [runTPLegIfSet, hp]

theorem runTPLegIfSet_some_nonpos {p : ℚ} (hp : ¬ 0 < p) (c pc : Bool)
    (mr : Option ModifyResponse) (st : SysState) (sig : Signal) (eid : Nat)
    (ty : String) (vol : ℚ) :
    runTPLegIfSet c pc mr st sig eid ty (some p) vol = st := by
  simp [runTPLegIfSet, hp]

theorem tun_runTPLegIfSet {st : SysState} (h : TicketUniqueInv st) (c pc : Bool)
    (mr : Option ModifyResponse) (sig : Signal) (eid : Nat) (ty : String)
    (otp : Option ℚ) (vol : ℚ) :
    TicketUniqueInv (runTPLegIfSet c pc mr st sig eid ty otp vol) := by
  rcases otp with _ | p
  · rw [runTPLegIfSet_none]
    exact h
  · by_cases hp : 0 < p
    · rw [runTPLegIfSet_some_pos hp]
      exact tun_runTPLeg h c pc mr sig eid ty p vol
    · rw [runTPLegIfSet_some_nonpos hp]
      exact h

theorem tun_processBuySell {cfg : RiskConfig} {env : BridgeEnv} {st : SysState}
    {sig : Signal} {w : TVWebhook} (h : TicketUniqueInv st) :
    TicketUniqueInv (processBuySell cfg env st sig w).1 := by
  unfold processBuySell
  split
  · exact h
  split
  · exact h
  set V := calculatePositionSize cfg (w.volume.getD 0) with hV
  set C := createTrade st (entryTradeReq sig V) with hCdef
  have hC : TicketUniqueInv C.1 := tun_createTrade h _
  rcases hex : executeEntryTrade env C.1 C.2 with e | st2
  · simp only [hex]
    exact tun_update hC _ _
  · simp only [hex]
    exact tun_runTPLegIfSet
      (tun_runTPLegIfSet (tun_executeEntryTrade hC hex) env.connected env.tp1PosCheck
        env.tp1Resp sig C.2.id ("tp1") sig.tp1 (V / 2))
      env.connected env.tp2PosCheck env.tp2Resp sig C.2.id ("tp2") sig.tp2 (V / 2)

theorem tun_closeLoop {env : BridgeEnv} (l : List Trade) {st : SysState}
    (h : TicketUniqueInv st) : TicketUniqueInv (closeLoop env l st).1 := by
  induction l generalizing st with
  | nil => exact h
  | cons t rest ih =>
    unfold closeLoop
    rcases hco : closeTradeInMT5 env t with _ | _ | _
    · simp only [hco]
      exact h
    · simp only [hco]
      exact ih h
    · simp only [hco]
      exact ih (tun_update h _ _)

theorem tun_processSignal {cfg : RiskConfig} {env : BridgeEnv} {st : SysState}
    {sig : Signal} (h : TicketUniqueInv st) :
    TicketUniqueInv (processSignal cfg env st sig).1 := by
  unfold processSignal
  split
  · exact h
  rcases hp : sig.payload with _ | w
  · simp only [hp]
    exact h
  simp only [hp]
  split
  · exact tun_closeLoop _ h
  · exact tun_processBuySell h

theorem tun_processOneSignal {cfg : RiskConfig} {env : BridgeEnv} {st : SysState}
    {sig : Signal} (h : TicketUniqueInv st) :
    TicketUniqueInv (processOneSignal cfg env st sig) :=
  tun_markProcessed (tun_processSignal h) sig.id

/-- Ticket uniqueness holds at every reachable state under any bridge
assumption: the database constraint enforces it against arbitrary bridge
answers. -/
theorem ticketUnique_reach {P : BridgeEnv → SysState → Prop} {st : SysState}
    (h : ReachP P st) : TicketUniqueInv st := by
  induction h with
  | init => exact ticketUniqueInv_init
  | createSignal req _ ih => exact tun_createSignal ih req
  | processOne cfg env sig _ hmem hunp hpol ih => exact tun_processOneSignal ih
  | sync connected positions orders _ ih =>
    exact tun_sync ih connected positions orders

/-! ### Filled rows always carry a ticket (non-zero-ticket bridge) -/

theorem filledInv_update {st : SysState} (h : FilledTicketInv st) (i : Nat)
    {u : UpdateTradeStatusRequest} (hc : u.status = "filled" → u.mt5Ticket.isSome) :
    FilledTicketInv (updateTradeStatus st i u) := by
  unfold updateTradeStatus
  split
  · exact h
  unfold updateRows
  intro t' ht' hstat
  rcases List.mem_map.1 ht' with ⟨t, ht, rfl⟩
  by_cases hid : t.id = i
  · rw [if_pos hid] at hstat ⊢
    rw [applyUpd_status] at hstat
    have hsome := hc hstat
    rcases hk : u.mt5Ticket with _ | k
    · rw [hk] at hsome
      cases hsome
    · rw [applyUpd_mt5Ticket_of_some t hk]
      rfl
  · rw [if_neg hid] at hstat ⊢
    exact h t ht hstat

theorem filledInv_createTrade {st : SysState} (h : FilledTicketInv st)
    (req : CreateTradeRequest) : FilledTicketInv (createTrade st req).1 := by
  intro t ht hstat
  have ht' : t ∈ st.trades ∨ t = (createTrade st req).2 := by
    simpa [createTrade] using ht
  rcases ht' with hmem | rfl
  · exact h t hmem hstat
  · simp [createTrade] at hstat

theorem filledInv_executeEntryTrade {env : BridgeEnv} {st st' : SysState} {trade : Trade}
    (h : FilledTicketInv st)
    (hz : ∀ r, env.entryResp = some r → r.success = true → r.ticket ≠ 0)
    (hok : executeEntryTrade env st trade = .ok st') : FilledTicketInv st' := by
  unfold executeEntryTrade at hok
  split at hok
  · exact Except.noConfusion hok
  rcases hr : env.entryResp with _ | r
  · simp only [hr] at hok
    exact Except.noConfusion hok
  simp only [hr] at hok
  split at hok
  · exact Except.noConfusion hok
  have hst := (Except.ok.inj hok).symm
  rw [hst]
  refine filledInv_update h _ ?_
  intro hfill
  unfold entryUpd at hfill ⊢
  by_cases hs : r.success = true
  · rw [if_pos hs] at hfill ⊢
    simp [hz r hr hs]
  · rw [if_neg hs] at hfill
    simp at hfill

theorem filledInv_executeTPTrade {c pc : Bool} {mr : Option ModifyResponse}
    {st st' : SysState} {trade : Trade} (h : FilledTicketInv st)
    (hok : executeTPTrade c pc mr st trade = .ok st') : FilledTicketInv st' := by
  unfold executeTPTrade at hok
  split at hok
  · exact Except.noConfusion hok
  rcases hp : trade.parentTradeId with _ | pid
  · simp only [hp] at hok
    exact Except.noConfusion hok
  simp only [hp] at hok
  rcases hf : getTradeByIDState st pid with _ | parentTrade
  · simp only [hf] at hok
    exact Except.noConfusion hok
  simp only [hf] at hok
  rcases ht : parentTrade.mt5Ticket with _ | ticket
  · simp only [ht] at hok
    exact Except.noConfusion hok
  simp only [ht] at hok
  split at hok
  · have hst := (Except.ok.inj hok).symm
    rw [hst]
    refine filledInv_update h _ ?_
    intro hx
    simp at hx
  · rcases hm : mr with _ | m
    · simp only [hm] at hok
      exact Except.noConfusion hok
    simp only [hm] at hok
    split at hok
    · exact Except.noConfusion hok
    have hst := (Except.ok.inj hok).symm
    rw [hst]
    refine filledInv_update h _ ?_
    intro hx
    unfold tpUpd at hx
    by_cases hs : m.success = true
    · rw [if_pos hs] at hx
      simp at hx
    · rw [if_neg hs] at hx
      simp at hx

theorem filledInv_runTPLeg {st : SysState} (h : FilledTicketInv st) (c pc : Bool)
    (mr : Option ModifyResponse) (sig : Signal) (eid : Nat) (ty : String)
    (price vol : ℚ) : FilledTicketInv (runTPLeg c pc mr st sig eid ty price vol) := by
  have hC : FilledTicketInv (createTrade st (tpTradeReq sig eid ty price vol)).1 :=
    filledInv_createTrade h _
  unfold runTPLeg
  rcases hex : executeTPTrade c pc mr (createTrade st (tpTradeReq sig eid ty price vol)).1
      (createTrade st (tpTradeReq sig eid ty price vol)).2 with e | st2
  · simp only [hex]
    refine filledInv_update hC _ ?_
    intro hx
    simp at hx
  · simp only [hex]
    exact filledInv_executeTPTrade hC hex

theorem filledInv_runTPLegIfSet {st : SysState} (h : FilledTicketInv st) (c pc : Bool)
    (mr : Option ModifyResponse) (sig : Signal) (eid : Nat) (ty : String)
    (otp : Option ℚ) (vol : ℚ) :
    FilledTicketInv (runTPLegIfSet c pc mr st sig eid ty otp vol) := by
  rcases otp with _ | p
  · rw [runTPLegIfSet_none]
    exact h
  · by_cases hp : 0 < p
    · rw [runTPLegIfSet_some_pos hp]
      exact filledInv_runTPLeg h c pc mr sig eid ty p vol
    · rw [runTPLegIfSet_some_nonpos hp]
      exact h

theorem filledInv_processBuySell {cfg : RiskConfig} {env : BridgeEnv} {st : SysState}
    {sig : Signal} {w : TVWebhook} (h : FilledTicketInv st)
    (hz : ∀ r, env.entryResp = some r → r.success = true → r.ticket ≠ 0) :
    FilledTicketInv (processBuySell cfg env st sig w).1 := by
  unfold processBuySell
  split
  · exact h
  split
  · exact h
  set V := calculatePositionSize cfg (w.volume.getD 0) with hV
  set C := createTrade st (entryTradeReq sig V) with hCdef
  have hC : FilledTicketInv C.1 := filledInv_createTrade h _
  rcases hex : executeEntryTrade env C.1 C.2 with e | st2
  · simp only [hex]
    refine filledInv_update hC _ ?_
    intro hx
    simp at hx
  · simp only [hex]
    have h2 : FilledTicketInv st2 := filledInv_executeEntryTrade hC hz hex
    exact filledInv_runTPLegIfSet
      (filledInv_runTPLegIfSet h2 env.connected env.tp1PosCheck env.tp1Resp sig C.2.id
        ("tp1") sig.tp1 (V / 2))
      env.connected env.tp2PosCheck env.tp2Resp sig C.2.id ("tp2") sig.tp2 (V / 2)

theorem filledInv_closeLoop {env : BridgeEnv} (l : List Trade) {st : SysState}
    (h : FilledTicketInv st) : FilledTicketInv (closeLoop env l st).1 := by
  induction l generalizing st with
  | nil => exact h
  | cons t rest ih =>
    unfold closeLoop
    rcases hco : closeTradeInMT5 env t with _ | _ | _
    · simp only [hco]
      exact h
    · simp only [hco]
      exact ih h
    · simp only [hco]
      refine ih (filledInv_update h _ ?_)
      intro hx
      simp at hx

theorem filledInv_syncOne (positions : List PositionInfo) (orders : List OrderInfo)
    {t : Trade} (h : t.status = "filled" → t.mt5Ticket.isSome) :
    (syncOne positions orders t).1.status = "filled" →
      (syncOne positions orders t).1.mt5Ticket.isSome := by
  unfold syncOne
  by_cases h1 : isOpenStatus t.status = false
  · simpa [h1] using h
  · simp only [h1, if_false]
    match ht : t.mt5Ticket with
    | none => simpa using h
    | some ticket =>
      simp only
      match posLookup positions ticket with
      | some pos =>
        intro _
        simp [applyUpd, patchOpt, posUpd, ht]
      | none =>
        simp only
        match ordLookup orders ticket with
        | some o =>
          intro hx
          simp [applyUpd, ordUpd] at hx
        | none =>
          by_cases h2 : t.status = "filled"
          · simp only [h2, if_true]
            intro hx
            simp [applyUpd] at hx
          · by_cases h3 : t.status = "pending"
            · simp only [h2, h3, if_false, if_true]
              intro hx
              simp [applyUpd] at hx
            · simpa [h2, h3] using h

theorem filledInv_sync {st : SysState} (h : FilledTicketInv st) (connected : Bool)
    (positions : List PositionInfo) (orders : List OrderInfo) :
    FilledTicketInv (syncPositionsFromMT5 st connected positions orders) := by
  unfold syncPositionsFromMT5
  by_cases hc : connected
  · rw [if_pos hc]
    intro t' ht' hstat
    rcases List.mem_map.1 ht' with ⟨t, ht, rfl⟩
    exact filledInv_syncOne positions orders (h t ht) hstat
  · rw [if_neg hc]
    exact h

theorem filledInv_processSignal {cfg : RiskConfig} {env : BridgeEnv} {st : SysState}
    {sig : Signal} (h : FilledTicketInv st)
    (hz : ∀ r, env.entryResp = some r → r.success = true → r.ticket ≠ 0) :
    FilledTicketInv (processSignal cfg env st sig).1 := by
  unfold processSignal
  split
  · exact h
  rcases hp : sig.payload with _ | w
  · simp only [hp]
    exact h
  simp only [hp]
  split
  · exact filledInv_closeLoop _ h
  · exact filledInv_processBuySell h hz

theorem filledInv_processOneSignal {cfg : RiskConfig} {env : BridgeEnv} {st : SysState}
    {sig : Signal} (h : FilledTicketInv st)
    (hz : ∀ r, env.entryResp = some r → r.success = true → r.ticket ≠ 0) :
    FilledTicketInv (processOneSignal cfg env st sig) := by
  intro t ht
  unfold processOneSignal at ht
  rw [markSignalProcessed_trades] at ht
  exact filledInv_processSignal h hz t ht

/-- Every reachable state under the non-zero-ticket bridge assumption has a
ticket on every `filled` row. -/
theorem filledInv_reach {st : SysState} (h : ReachP nonzeroTicketBridge st) :
    FilledTicketInv st := by
  induction h with
  | init => exact filledTicketInv_init
  | createSignal req _ ih =>
    intro t ht
    exact ih t ht
  | processOne cfg env sig _ hmem hunp hpol ih => exact filledInv_processOneSignal ih hpol
  | sync connected positions orders _ ih =>
    exact filledInv_sync ih connected positions orders

/-! ### Branch characterisations of the reconciliation step -/

theorem syncOne_not_open {t : Trade} (h : isOpenStatus t.status = false)
    (positions : List PositionInfo) (orders : List OrderInfo) :
    syncOne positions orders t = (t, 0) := by
  simp [syncOne, h]

theorem syncOne_no_ticket {t : Trade} (h : isOpenStatus t.status = true)
    (h2 : t.mt5Ticket = none) (positions : List PositionInfo) (orders : List OrderInfo) :
    syncOne positions orders t = (t, 0) := by
  simp [syncOne, h, h2]

theorem syncOne_pos {t : Trade} (h : isOpenStatus t.status = true) {k : Int}
    (h2 : t.mt5Ticket = some k) {positions : List PositionInfo} {pos : PositionInfo}
    (h3 : posLookup positions k = some pos) (orders : List OrderInfo) :
    syncOne positions orders t = (applyUpd (posUpd pos) t, 1) := by
  simp [syncOne, h, h2, h3]

theorem syncOne_ord {t : Trade} (h : isOpenStatus t.status = true) {k : Int}
    (h2 : t.mt5Ticket = some k) {positions : List PositionInfo}
    (h3 : posLookup positions k = none) {orders : List OrderInfo} {o : OrderInfo}
    (h4 : ordLookup orders k = some o) :
    syncOne positions orders t = (applyUpd (ordUpd o) t, 1) := by
  simp [syncOne, h, h2, h3, h4]

theorem syncOne_gone_filled {t : Trade} (h : t.status = "filled") {k : Int}
    (h2 : t.mt5Ticket = some k) {positions : List PositionInfo}
    (h3 : posLookup positions k = none) {orders : List OrderInfo}
    (h4 : ordLookup orders k = none) :
    syncOne positions orders t = (applyUpd { status := "closed" } t, 1) := by
  simp [syncOne, isOpenStatus, h, h2, h3, h4]

theorem syncOne_gone_pending {t : Trade} (h : t.status = "pending") {k : Int}
    (h2 : t.mt5Ticket = some k) {positions : List PositionInfo}
    (h3 : posLookup positions k = none) {orders : List OrderInfo}
    (h4 : ordLookup orders k = none) :
    syncOne positions orders t = (applyUpd { status := "cancelled" } t, 1) := by
  simp [syncOne, isOpenStatus, h, h2, h3, h4]

theorem syncOne_gone_part {t : Trade} (h : t.status = "partial") {k : Int}
    (h2 : t.mt5Ticket = some k) {positions : List PositionInfo}
    (h3 : posLookup positions k = none) {orders : List OrderInfo}
    (h4 : ordLookup orders k = none) :
    syncOne positions orders t = (t, 0) := by
  simp [syncOne, isOpenStatus, h, h2, h3, h4]

theorem patchOpt_idem (new old : Option α) :
    patchOpt new (patchOpt new old) = patchOpt new old := by
  cases new <;> rfl

theorem applyUpd_idem (u : UpdateTradeStatusRequest) (t : Trade) :
    applyUpd u (applyUpd u t) = applyUpd u t := by
  unfold applyUpd
  rcases u with ⟨s, mt, ep, cp, pl, co, sw⟩
  simp only [patchOpt_idem]
  cases pl <;> cases co <;> cases sw <;> simp [patchOpt]

/-- The five possible shapes of one open-trade reconciliation. -/
theorem syncOne_cases (positions : List PositionInfo) (orders : List OrderInfo)
    (t : Trade) :
    (syncOne positions orders t).1 = t ∨
    (∃ pos, (syncOne positions orders t).1 = applyUpd (posUpd pos) t ∧
      posLookup positions (t.mt5Ticket.getD 0) = some pos ∧ t.mt5Ticket.isSome) ∨
    (∃ o, (syncOne positions orders t).1 = applyUpd (ordUpd o) t) ∨
    (syncOne positions orders t).1 = applyUpd { status := "closed" } t ∨
    (syncOne positions orders t).1 = applyUpd { status := "cancelled" } t := by
  unfold syncOne
  by_cases h1 : isOpenStatus t.status = false
  · simp [h1]
  · simp only [h1, if_false]
    match ht : t.mt5Ticket with
    | none => simp
    | some ticket =>
      simp only
      match hp : posLookup positions ticket with
      | some pos =>
        refine Or.inr (Or.inl ⟨pos, rfl, ?_, by simp [ht]⟩)
        simpa [ht] using hp
      | none =>
        simp only
        match ho : ordLookup orders ticket with
        | some o => exact Or.inr (Or.inr (Or.inl ⟨o, rfl⟩))
        | none =>
          by_cases h2 : t.status = "filled"
          · simp [h2]
          · by_cases h3 : t.status = "pending" <;> simp [h2, h3]

/-- An open, ticketed trade whose ticket is currently visible on the bridge
(live position or pending order): exactly the rows a reconciliation cycle
re-writes every time it runs. -/
def matchedOpen (positions : List PositionInfo) (orders : List OrderInfo)
    (t : Trade) : Bool :=
  isOpenStatus t.status &&
    (match t.mt5Ticket with
     | some k => (posLookup positions k).isSome || (ordLookup orders k).isSome
     | none => false)

theorem syncOne_idem (positions : List PositionInfo) (orders : List OrderInfo)
    (t : Trade) :
    (syncOne positions orders (syncOne positions orders t).1).1 =
      (syncOne positions orders t).1 := by
  by_cases h1 : isOpenStatus t.status = false
  · rw [syncOne_not_open h1, syncOne_not_open h1]
  · have h1' : isOpenStatus t.status = true := by
      cases hb : isOpenStatus t.status
      · exact absurd hb h1
      · rfl
    rcases ht : t.mt5Ticket with _ | k
    · rw [syncOne_no_ticket h1' ht, syncOne_no_ticket h1' ht]
    · rcases hp : posLookup positions k with _ | pos
      · rcases ho : ordLookup orders k with _ | o
        · by_cases h2 : t.status = "filled"
          · rw [syncOne_gone_filled h2 ht hp ho,
              syncOne_not_open (by simp [isOpenStatus, applyUpd_status])]
          · by_cases h3 : t.status = "pending"
            · rw [syncOne_gone_pending h3 ht hp ho,
                syncOne_not_open (by simp [isOpenStatus, applyUpd_status])]
            · have h4 : t.status = "partial" := by
                simp [isOpenStatus, h2, h3] at h1'
                exact h1'
              rw [syncOne_gone_part h4 ht hp ho, syncOne_gone_part h4 ht hp ho]
        · rw [syncOne_ord h1' ht hp ho]
          have hopen : isOpenStatus (applyUpd (ordUpd o) t).status = true := by
            simp [applyUpd_status, ordUpd, isOpenStatus]
          have htk : (applyUpd (ordUpd o) t).mt5Ticket = some k := by
            rw [applyUpd_mt5Ticket_of_none t rfl, ht]
          rw [syncOne_ord hopen htk hp ho, applyUpd_idem]
      · rw [syncOne_pos h1' ht hp orders]
        have hopen : isOpenStatus (applyUpd (posUpd pos) t).status = true := by
          simp [applyUpd_status, posUpd, isOpenStatus]
        have htk : (applyUpd (posUpd pos) t).mt5Ticket = some k := by
          rw [applyUpd_mt5Ticket_of_none t rfl, ht]
        rw [syncOne_pos hopen htk hp orders, applyUpd_idem]

theorem syncOne_snd_after (positions : List PositionInfo) (orders : List OrderInfo)
    (t : Trade) :
    (syncOne positions orders (syncOne positions orders t).1).2 =
      if matchedOpen positions orders (syncOne positions orders t).1 then 1 else 0 := by
  by_cases h1 : isOpenStatus t.status = false
  · rw [syncOne_not_open h1, syncOne_not_open h1]
    simp [matchedOpen, h1]
  · have h1' : isOpenStatus t.status = true := by
      cases hb : isOpenStatus t.status
      · exact absurd hb h1
      · rfl
    rcases ht : t.mt5Ticket with _ | k
    · rw [syncOne_no_ticket h1' ht, syncOne_no_ticket h1' ht]
      simp [matchedOpen, ht]
    · rcases hp : posLookup positions k with _ | pos
      · rcases ho : ordLookup orders k with _ | o
        · by_cases h2 : t.status = "filled"
          · rw [syncOne_gone_filled h2 ht hp ho,
              syncOne_not_open (by simp [isOpenStatus, applyUpd_status])]
            simp [matchedOpen, isOpenStatus, applyUpd_status]
          · by_cases h3 : t.status = "pending"
            · rw [syncOne_gone_pending h3 ht hp ho,
                syncOne_not_open (by simp [isOpenStatus, applyUpd_status])]
              simp [matchedOpen, isOpenStatus, applyUpd_status]
            · have h4 : t.status = "partial" := by
                simp [isOpenStatus, h2, h3] at h1'
                exact h1'
              rw [syncOne_gone_part h4 ht hp ho, syncOne_gone_part h4 ht hp ho]
              simp [matchedOpen, h1', ht, hp, ho]
        · rw [syncOne_ord h1' ht hp ho]
          have hopen : isOpenStatus (applyUpd (ordUpd o) t).status = true := by
            simp [applyUpd_status, ordUpd, isOpenStatus]
          have htk : (applyUpd (ordUpd o) t).mt5Ticket = some k := by
            rw [applyUpd_mt5Ticket_of_none t rfl, ht]
          rw [syncOne_ord hopen htk hp ho]
          simp [matchedOpen, hopen, htk, hp, ho]
      · rw [syncOne_pos h1' ht hp orders]
        have hopen : isOpenStatus (applyUpd (posUpd pos) t).status = true := by
          simp [applyUpd_status, posUpd, isOpenStatus]
        have htk : (applyUpd (posUpd pos) t).mt5Ticket = some k := by
          rw [applyUpd_mt5Ticket_of_none t rfl, ht]
        rw [syncOne_pos hopen htk hp orders]
        simp [matchedOpen, hopen, htk, hp]

theorem sum_map_ite_eq_countP (l : List Trade) (p : Trade → Bool) :
    (l.map fun t => if p t then (1 : Nat) else 0).sum = l.countP p := by
  induction l with
  | nil => rfl
  | cons a as ih => by_cases h : p a <;> simp [List.countP_cons, h, ih, Nat.add_comm]

/-- Running reconciliation twice with the same bridge answers leaves the
trades table exactly as after the first run. -/
theorem syncTrades_trades_idem (trades : List Trade) (positions : List PositionInfo)
    (orders : List OrderInfo) :
    (syncTrades (syncTrades trades positions orders).1 positions orders).1 =
      (syncTrades trades positions orders).1 := by
  unfold syncTrades
  simp only [List.map_map]
  exact List.map_congr_left fun t _ => syncOne_idem positions orders t

/-- The second run still issues one write per matched open trade. -/
theorem syncTrades_writes_after (trades : List Trade) (positions : List PositionInfo)
    (orders : List OrderInfo) :
    (syncTrades (syncTrades trades positions orders).1 positions orders).2 =
      (syncTrades trades positions orders).1.countP
        (matchedOpen positions orders) := by
  unfold syncTrades
  rw [← sum_map_ite_eq_countP]
  simp only [List.map_map]
  congr 1
  refine List.map_congr_left fun t _ => ?_
  exact syncOne_snd_after positions orders t

/-! ### Row lookups through updates and the close loop -/

theorem getTradeByID_map {f : Trade → Trade} (hf : ∀ t, (f t).id = t.id)
    (l : List Trade) (i : Nat) :
    getTradeByID (l.map f) i = (getTradeByID l i).map f := by
  induction l with
  | nil => rfl
  | cons a as ih =>
    by_cases h : a.id = i
    · unfold getTradeByID
      rw [List.map_cons, List.find?_cons_of_pos, List.find?_cons_of_pos]
      · rfl
      · simpa using h
      · simpa [hf a] using h
    · unfold getTradeByID at ih ⊢
      rw [List.map_cons, List.find?_cons_of_neg, List.find?_cons_of_neg]
      · exact ih
      · simpa using h
      · simpa [hf a] using h

theorem updateRows_find_ne {st : SysState} {i j : Nat} (h : j ≠ i)
    (u : UpdateTradeStatusRequest) :
    getTradeByID (updateRows st i u).trades j = getTradeByID st.trades j := by
  unfold updateRows
  rw [getTradeByID_map (f := fun t => if t.id = i then applyUpd u t else t)]
  · rcases hf : getTradeByID st.trades j with _ | t
    · rfl
    · obtain ⟨_, hid⟩ := getTradeByID_mem hf
      simp [hid, h]
  · intro t
    by_cases hc : t.id = i <;> simp [hc, applyUpd_id]

theorem updateRows_find_self (st : SysState) (i : Nat)
    (u : UpdateTradeStatusRequest) :
    getTradeByID (updateRows st i u).trades i =
      (getTradeByID st.trades i).map (applyUpd u) := by
  unfold updateRows
  rw [getTradeByID_map (f := fun t => if t.id = i then applyUpd u t else t)]
  · rcases hf : getTradeByID st.trades i with _ | t
    · rfl
    · obtain ⟨_, hid⟩ := getTradeByID_mem hf
      simp [hid]
  · intro t
    by_cases hc : t.id = i <;> simp [hc, applyUpd_id]

theorem updateTradeStatus_find_ne {st : SysState} {i j : Nat} (h : j ≠ i)
    (u : UpdateTradeStatusRequest) :
    getTradeByID (updateTradeStatus st i u).trades j = getTradeByID st.trades j := by
  unfold updateTradeStatus
  split
  · rfl
  · exact updateRows_find_ne h u

/-- Finding the updated row, for an update the constraint does not refuse. -/
theorem updateTradeStatus_find_self {st : SysState} {i : Nat}
    {u : UpdateTradeStatusRequest} (hnc : ticketConflict st.trades i u = false) :
    getTradeByID (updateTradeStatus st i u).trades i =
      (getTradeByID st.trades i).map (applyUpd u) := by
  rw [updateTradeStatus_no_conflict hnc]
  exact updateRows_find_self st i u

theorem closeLoop_untouched {env : BridgeEnv} (l : List Trade) (st : SysState) {j : Nat}
    (h : ∀ u ∈ l, u.id ≠ j) :
    getTradeByID (closeLoop env l st).1.trades j = getTradeByID st.trades j := by
  induction l generalizing st with
  | nil => rfl
  | cons a rest ih =>
    unfold closeLoop
    rcases hco : closeTradeInMT5 env a with _ | _ | _
    · simp only [hco]
    · simp only [hco]
      exact ih _ fun u hu => h u (List.mem_cons_of_mem a hu)
    · simp only [hco]
      rw [ih _ fun u hu => h u (List.mem_cons_of_mem a hu)]
      exact updateTradeStatus_find_ne (fun he => h a (List.mem_cons_self a rest) he.symm) _

theorem closeLoop_find_err {env : BridgeEnv} {l : List Trade} {t : Trade} (ht : t ∈ l)
    (hnd : (l.map Trade.id).Nodup) (st : SysState)
    (herr : closeTradeInMT5 env t = .err) :
    getTradeByID (closeLoop env l st).1.trades t.id = getTradeByID st.trades t.id := by
  induction l generalizing st with
  | nil => cases ht
  | cons a rest ih =>
    rw [List.map_cons, List.nodup_cons] at hnd
    rcases List.mem_cons.1 ht with rfl | hmem
    · unfold closeLoop
      rw [herr]
      exact closeLoop_untouched rest st fun u hu he =>
        hnd.1 (by rw [← he]; exact List.mem_map_of_mem Trade.id hu)
    · unfold closeLoop
      rcases hco : closeTradeInMT5 env a with _ | _ | _
      · simp only [hco]
      · simp only [hco]
        exact ih hmem hnd.2 st
      · simp only [hco]
        rw [ih hmem hnd.2 _]
        refine updateTradeStatus_find_ne ?_ _
        intro he
        exact hnd.1 (by rw [← he]; exact List.mem_map_of_mem Trade.id hmem)

theorem closeLoop_find_ok {env : BridgeEnv} {l : List Trade} {t : Trade} (ht : t ∈ l)
    (hnd : (l.map Trade.id).Nodup)
    (hnf : ∀ u ∈ l, closeTradeInMT5 env u ≠ .fault) (st : SysState)
    (hok : closeTradeInMT5 env t = .ok) :
    getTradeByID (closeLoop env l st).1.trades t.id =
      (getTradeByID st.trades t.id).map (applyUpd { status := "closed" }) := by
  induction l generalizing st with
  | nil => cases ht
  | cons a rest ih =>
    rw [List.map_cons, List.nodup_cons] at hnd
    rcases List.mem_cons.1 ht with rfl | hmem
    · unfold closeLoop
      rw [hok]
      rw [closeLoop_untouched rest _ fun u hu he =>
        hnd.1 (by rw [← he]; exact List.mem_map_of_mem Trade.id hu)]
      exact updateTradeStatus_find_self (ticketConflict_none rfl st.trades t.id)
    · unfold closeLoop
      rcases hco : closeTradeInMT5 env a with _ | _ | _
      · exact absurd hco (hnf a (List.mem_cons_self a rest))
      · simp only [hco]
        exact ih hmem hnd.2 (fun u hu => hnf u (List.mem_cons_of_mem a hu)) st
      · simp only [hco]
        rw [ih hmem hnd.2 (fun u hu => hnf u (List.mem_cons_of_mem a hu)) _]
        rw [updateTradeStatus_find_ne ?_ _]
        intro he
        exact hnd.1 (by rw [← he]; exact List.mem_map_of_mem Trade.id hmem)

theorem closeLoop_no_fault {env : BridgeEnv} (l : List Trade) (st : SysState)
    (h : ∀ u ∈ l, closeTradeInMT5 env u ≠ .fault) : (closeLoop env l st).2 = false := by
  induction l generalizing st with
  | nil => rfl
  | cons a rest ih =>
    unfold closeLoop
    rcases hco : closeTradeInMT5 env a with _ | _ | _
    · exact absurd hco (h a (List.mem_cons_self a rest))
    · simp only [hco]
      exact ih _ fun u hu => h u (List.mem_cons_of_mem a hu)
    · simp only [hco]
      exact ih _ fun u hu => h u (List.mem_cons_of_mem a hu)

theorem closeLoop_disconnected {env : BridgeEnv} (hc : env.connected = false)
    (l : List Trade) (st : SysState) : closeLoop env l st = (st, false) := by
  induction l generalizing st with
  | nil => rfl
  | cons a rest ih =>
    unfold closeLoop
    have hco : closeTradeInMT5 env a = .err := by
      simp [closeTradeInMT5, hc]
    simp only [hco]
    exact ih st

/-! ### Row ids stay below the id sequence; lookups through inserts -/

/-- All trade ids are below the next id the sequence will hand out. -/
def IdsBelow (st : SysState) : Prop :=
  ∀ t ∈ st.trades, t.id < st.nextTradeId

theorem idsBelow_create {st : SysState} (h : IdsBelow st) (req : CreateTradeRequest) :
    IdsBelow (createTrade st req).1 := by
  intro t ht
  have ht' : t ∈ st.trades ∨ t = (createTrade st req).2 := by
    simpa [createTrade] using ht
  rcases ht' with hmem | rfl
  · exact Nat.lt_succ_of_lt (h t hmem)
  · exact Nat.lt_succ_self _

theorem idsBelow_update {st : SysState} (h : IdsBelow st) (i : Nat)
    (u : UpdateTradeStatusRequest) : IdsBelow (updateTradeStatus st i u) := by
  unfold updateTradeStatus
  split
  · exact h
  unfold updateRows
  intro t' ht'
  rcases List.mem_map.1 ht' with ⟨t, ht, rfl⟩
  by_cases hc : t.id = i
  · simpa [hc, applyUpd_id] using h t ht
  · simpa [hc] using h t ht

theorem getTradeByID_append (l1 l2 : List Trade) (i : Nat) :
    getTradeByID (l1 ++ l2) i =
      match getTradeByID l1 i with
      | some t => some t
      | none => getTradeByID l2 i := by
  induction l1 with
  | nil => rfl
  | cons a as ih =>
    unfold getTradeByID at ih ⊢
    by_cases h : a.id = i
    · rw [List.cons_append, List.find?_cons_of_pos, List.find?_cons_of_pos] <;>
        simp [h]
    · rw [List.cons_append, List.find?_cons_of_neg, List.find?_cons_of_neg]
      · exact ih
      · simpa using h
      · simpa using h

theorem createTrade_find_old {st : SysState} {i : Nat} {t : Trade}
    (h : getTradeByID st.trades i = some t) (req : CreateTradeRequest) :
    getTradeByID (createTrade st req).1.trades i = some t := by
  have : (createTrade st req).1.trades = st.trades ++ [(createTrade st req).2] := by
    simp [createTrade]
  rw [this, getTradeByID_append, h]

theorem createTrade_find_new {st : SysState} (h : IdsBelow st)
    (req : CreateTradeRequest) :
    getTradeByID (createTrade st req).1.trades st.nextTradeId =
      some (createTrade st req).2 := by
  have heq : (createTrade st req).1.trades = st.trades ++ [(createTrade st req).2] := by
    simp [createTrade]
  rw [heq, getTradeByID_append]
  have hnone : getTradeByID st.trades st.nextTradeId = none := by
    rcases hf : getTradeByID st.trades st.nextTradeId with _ | t
    · rfl
    · obtain ⟨hmem, hid⟩ := getTradeByID_mem hf
      exact absurd hid (Nat.ne_of_lt (h t hmem))
  rw [hnone]
  simp [getTradeByID, createTrade]

theorem createTrade_nextTradeId (st : SysState) (req : CreateTradeRequest) :
    (createTrade st req).1.nextTradeId = st.nextTradeId + 1 := rfl

/-! ### The signals table through the operations -/

theorem createTrade_signals (st : SysState) (req : CreateTradeRequest) :
    (createTrade st req).1.signals = st.signals := rfl

theorem closeLoop_signals {env : BridgeEnv} (l : List Trade) (st : SysState) :
    (closeLoop env l st).1.signals = st.signals := by
  induction l generalizing st with
  | nil => rfl
  | cons a rest ih =>
    unfold closeLoop
    rcases hco : closeTradeInMT5 env a with _ | _ | _
    · simp only [hco]
    · simp only [hco]
      exact ih st
    · simp only [hco]
      rw [ih _]
      exact updateTradeStatus_signals _ _ _

theorem runTPLeg_signals (c pc : Bool) (mr : Option ModifyResponse) (st : SysState)
    (sig : Signal) (eid : Nat) (ty : String) (price vol : ℚ) :
    (runTPLeg c pc mr st sig eid ty price vol).signals = st.signals := by
  obtain ⟨u, hnc, hu⟩ := runTPLeg_shape c pc mr st sig eid ty price vol
  rw [hu, updateTradeStatus_signals, createTrade_signals]

theorem runTPLegIfSet_signals (c pc : Bool) (mr : Option ModifyResponse) (st : SysState)
    (sig : Signal) (eid : Nat) (ty : String) (otp : Option ℚ) (vol : ℚ) :
    (runTPLegIfSet c pc mr st sig eid ty otp vol).signals = st.signals := by
  rcases otp with _ | p
  · rw [runTPLegIfSet_none]
  · by_cases hp : 0 < p
    · rw [runTPLegIfSet_some_pos hp, runTPLeg_signals]
    · rw [runTPLegIfSet_some_nonpos hp]

theorem processBuySell_signals (cfg : RiskConfig) (env : BridgeEnv) (st : SysState)
    (sig : Signal) (w : TVWebhook) :
    (processBuySell cfg env st sig w).1.signals = st.signals := by
  unfold processBuySell
  split
  · rfl
  split
  · rfl
  set V := calculatePositionSize cfg (w.volume.getD 0) with hV
  set C := createTrade st (entryTradeReq sig V) with hCdef
  rcases hex : executeEntryTrade env C.1 C.2 with e | st2
  · simp only [hex]
    rw [updateTradeStatus_signals]
    exact createTrade_signals st _
  · simp only [hex]
    rw [runTPLegIfSet_signals, runTPLegIfSet_signals]
    obtain ⟨u, hnc, hu⟩ := executeEntryTrade_ok_shape hex
    rw [hu, updateTradeStatus_signals]
    exact createTrade_signals st _

theorem processSignal_signals (cfg : RiskConfig) (env : BridgeEnv) (st : SysState)
    (sig : Signal) : (processSignal cfg env st sig).1.signals = st.signals := by
  unfold processSignal
  split
  · rfl
  rcases hp : sig.payload with _ | w
  · simp only [hp]
  simp only [hp]
  split
  · exact closeLoop_signals _ _
  · exact processBuySell_signals cfg env st sig w

theorem syncPositionsFromMT5_signals (st : SysState) (connected : Bool)
    (positions : List PositionInfo) (orders : List OrderInfo) :
    (syncPositionsFromMT5 st connected positions orders).signals = st.signals := by
  unfold syncPositionsFromMT5
  split <;> rfl

/-- Identity of signals with equal ids, from the id-column `Nodup`. -/
theorem signal_eq_of_id_eq {l : List Signal} (hnd : (l.map Signal.id).Nodup)
    {s1 s2 : Signal} (h1 : s1 ∈ l) (h2 : s2 ∈ l) (h : s1.id = s2.id) : s1 = s2 :=
  List.inj_on_of_nodup_map hnd h1 h2 h

theorem getSignalByID_list_eq_of_mem {l : List Signal}
    (hnd : (l.map Signal.id).Nodup) {s : Signal} (hs : s ∈ l) :
    l.find? (fun x => x.id = s.id) = some s := by
  induction l with
  | nil => cases hs
  | cons a as ih =>
    rw [List.map_cons, List.nodup_cons] at hnd
    rcases List.mem_cons.1 hs with rfl | hmem
    · rw [List.find?_cons_of_pos]
      simp
    · rw [List.find?_cons_of_neg]
      · exact ih hnd.2 hmem
      · simp only [decide_eq_true_eq]
        intro he
        exact hnd.1 (by rw [he]; exact List.mem_map_of_mem Signal.id hmem)

theorem getSignalByID_eq_of_mem {st : SysState}
    (hnd : (st.signals.map Signal.id).Nodup) {s : Signal} (hs : s ∈ st.signals) :
    getSignalByID st s.id = some s :=
  getSignalByID_list_eq_of_mem hnd hs

theorem findSignal_map {f : Signal → Signal} (hf : ∀ s, (f s).id = s.id)
    (l : List Signal) (i : Nat) :
    (l.map f).find? (fun x => x.id = i) = (l.find? fun x => x.id = i).map f := by
  induction l with
  | nil => rfl
  | cons a as ih =>
    by_cases h : a.id = i
    · rw [List.map_cons, List.find?_cons_of_pos, List.find?_cons_of_pos]
      · rfl
      · simpa using h
      · simpa [hf a] using h
    · rw [List.map_cons, List.find?_cons_of_neg, List.find?_cons_of_neg]
      · exact ih
      · simpa using h
      · simpa [hf a] using h

theorem markSignalProcessed_find_self {st : SysState}
    (hnd : (st.signals.map Signal.id).Nodup) {s : Signal} (hs : s ∈ st.signals) :
    getSignalByID (markSignalProcessed st s.id) s.id =
      some { s with processed := true } := by
  unfold getSignalByID markSignalProcessed
  rw [findSignal_map (f := fun x => if x.id = s.id then { x with processed := true } else x)]
  · have hfound : st.signals.find? (fun x => x.id = s.id) = some s :=
      getSignalByID_list_eq_of_mem hnd hs
    rw [hfound]
    simp
  · intro x
    by_cases hc : x.id = s.id <;> simp [hc]

theorem entryUpd_ticket {r : TradeResponse} {m : Int}
    (h : (entryUpd r).mt5Ticket = some m) : m = r.ticket := by
  unfold entryUpd at h
  by_cases hs : r.success = true
  · rw [if_pos hs] at h
    have h' : (if r.ticket ≠ 0 then some r.ticket else none) = some m := h
    by_cases hz : r.ticket ≠ 0
    · rw [if_pos hz] at h'
      exact (Option.some.inj h').symm
    · rw [if_neg hz] at h'
      exact Option.noConfusion h'
  · rw [if_neg hs] at h
    exact Option.noConfusion (show (none : Option Int) = some m from h)

/-- The entry update cannot hit the ticket constraint when no stored row
already carries the bridge-reported ticket (the freshly inserted entry row
itself is ticketless). -/
theorem entry_no_conflict {st : SysState} {r : TradeResponse}
    (hfresh : ∀ t ∈ st.trades, t.mt5Ticket ≠ some r.ticket)
    (req : CreateTradeRequest) :
    ticketConflict (createTrade st req).1.trades (createTrade st req).2.id
      (entryUpd r) = false := by
  rcases hu : (entryUpd r).mt5Ticket with _ | m
  · exact ticketConflict_none hu _ _
  · have hm : m = r.ticket := entryUpd_ticket hu
    unfold ticketConflict
    rw [hu, List.any_eq_false]
    intro t ht
    have ht' : t ∈ st.trades ∨ t = (createTrade st req).2 := by
      simpa [createTrade] using ht
    simp only [decide_eq_true_eq]
    intro hand
    rcases ht' with hmem | rfl
    · rw [hm] at hand
      exact hfresh t hmem hand.2
    · rw [createTrade_snd_ticket] at hand
      exact Option.noConfusion hand.2

theorem executeEntryTrade_not_error {env : BridgeEnv} {st : SysState} {trade : Trade}
    (hc : env.connected = true) {r : TradeResponse} (hr : env.entryResp = some r)
    (hnc : ticketConflict st.trades trade.id (entryUpd r) = false) :
    ∀ e, executeEntryTrade env st trade ≠ .error e := by
  intro e h
  unfold executeEntryTrade at h
  simp [hc, hr, hnc] at h

/-! ### Claims -/

/-- C1 scenario: a buy signal with both TP levels, bridge reachable, and
the bridge business-rejecting the entry submission (`success = false`). -/
def wC1 : TVWebhook :=
  { ticker := "EURUSD", action := "buy", entry := some (217 / 200),
    tp1 := some (109 / 100), tp2 := some (219 / 200), volume := some (1 / 100) }

def sigC1 : Signal :=
  { id := 0, source := "tradingview", symbol := "EURUSD", signalType := "buy",
    price := some (217 / 200), tp1 := some (109 / 100), tp2 := some (219 / 200),
    payload := some wC1 }

def cfgC1 : RiskConfig := { enableRiskChecks := false, maxPositionSize := 10 }

def envC1 : BridgeEnv := { connected := true, entryResp := some { success := false } }

def stC1 : SysState := { signals := [sigC1] }

/-- **C1** (code_bug evaluation): when the bridge answers the entry
submission with `success = false`, `executeEntryTrade` marks the entry
`rejected` but returns no error, so `processTradingViewSignal` still
creates tp1 and tp2 trade records for the signal (they are then rejected
for want of a parent ticket) — contradicting both the claim and the code's
own "Only proceed with TP orders if entry was successful" comment. -/
theorem C1_rejected_entry_still_creates_tp_records :
    ((processSignal cfgC1 envC1 stC1 sigC1).1.trades.map
      fun t => (t.id, t.tradeType, t.status, t.parentTradeId)) =
    [(0, "entry", "rejected", none), (1, "tp1", "rejected", some 0),
      (2, "tp2", "rejected", some 0)] := by
  with_unfolding_all decide

/-- **C10** (code_bug evaluation): the pipe-delimited input
`EURUSD|buy||||||` (all optional numeric fields empty) is accepted by
`parseSimpleFormat`, but the payload string it stores interpolates the
empty fields bare (`"entry":,`), which is not valid JSON — so
`processTradingViewSignal`'s `json.Unmarshal` of the stored payload must
fail for every such signal. -/
def reqC10 : SimpleSignalRequest :=
  { source := "tradingview", symbol := "EURUSD", signalType := "buy",
    payload := simplePayload ("EURUSD") ("buy") ("") ("") ("") ("") ("") ("") }

theorem C10_simple_format_payload_not_json :
    (parseSimpleFormat ("EURUSD|buy||||||")).toOption = some reqC10 ∧
      jsonValid reqC10.payload = false := by
  constructor
  · with_unfolding_all decide
  · with_unfolding_all decide

/-- C7 scenario: one locally `filled` trade whose ticket is live on the
bridge. -/
def tC7 : Trade :=
  { id := 0, tradeType := "entry", symbol := "EURUSD", orderType := "market",
    direction := "buy", volume := 1 / 100, status := "filled", mt5Ticket := some 1 }

def psC7 : List PositionInfo :=
  [{ ticket := 1, symbol := "EURUSD", currentPrice := 217 / 200, profit := 5 }]

/-- **C7** (counterexample): running the reconciliation cycle twice with an
unchanged bridge snapshot does leave the trade rows unchanged, but the
second run is not write-free — it re-issues the status/price refresh for
every open trade matched to a live position or pending order: here one
write, not zero. -/
theorem C7_counterexample_second_run_writes :
    (syncTrades (syncTrades [tC7] psC7 []).1 psC7 []).2 = 1 := by
  rfl

/-- **C7 (amended)**: running the reconciliation cycle twice in immediate
succession with unchanged bridge position and pending-order lists produces
no state transitions in the second run beyond the first (the trades table
is a fixed point), but the second run is not write-free: it performs
exactly one trade-row write per open trade whose ticket is still matched
to a live position or pending order (and zero only when no such trade
exists). -/
theorem C7_amended_idempotent_state_one_write_per_matched_trade
    (trades : List Trade) (positions : List PositionInfo) (orders : List OrderInfo) :
    (syncTrades (syncTrades trades positions orders).1 positions orders).1 =
      (syncTrades trades positions orders).1 ∧
    (syncTrades (syncTrades trades positions orders).1 positions orders).2 =
      (syncTrades trades positions orders).1.countP (matchedOpen positions orders) :=
  ⟨syncTrades_trades_idem trades positions orders,
    syncTrades_writes_after trades positions orders⟩

/-- C3 scenario: one locally `filled` EURUSD trade, a close signal for
EURUSD, and an unreachable bridge. -/
def tC3 : Trade :=
  { id := 0, tradeType := "entry", symbol := "EURUSD", orderType := "market",
    direction := "buy", volume := 1, status := "filled", mt5Ticket := some 7 }

def stC3 : SysState := { trades := [tC3], nextTradeId := 1 }

def sigC3 : Signal :=
  { id := 0, source := "tradingview", symbol := "EURUSD", signalType := "close" }

def envC3 : BridgeEnv := { connected := false }

/-- **C3** (counterexample): with the bridge unreachable, `handleCloseSignal`
logs the close failure and `continue`s — the matching `filled` trade is
left untouched (still `filled`), not "still marked closed locally" as the
claim states. -/
theorem C3_counterexample_unreachable_bridge_leaves_trade_open :
    (handleCloseSignal stC3 sigC3 envC3).1 = stC3 ∧ tC3.status = "filled" := by
  constructor
  · exact congrArg Prod.fst (closeLoop_disconnected rfl (tradesToClose stC3 sigC3) stC3)
  · rfl

/-- **C3 (amended)**: for every close signal, each open trade with matching
symbol and status `filled` is attempted against its external ticket; on
bridge success the trade is marked `closed` by a status-only update (its
stored realized P&L, commission and swap are *not* refreshed from the close
response, which is only logged); when the bridge is unreachable, or the
close request for the trade fails, the trade is left exactly as it was
(the failure is only logged) — it is *not* marked closed locally. -/
theorem C3_amended_close_marks_closed_only_on_success (st : SysState) (sig : Signal)
    (env : BridgeEnv) :
    (env.connected = false → (handleCloseSignal st sig env).1 = st) ∧
    (env.connected = true →
      (st.trades.map Trade.id).Nodup →
      (∀ u ∈ tradesToClose st sig, u.mt5Ticket ≠ none) →
      ∀ t ∈ tradesToClose st sig, ∀ k : Int, t.mt5Ticket = some k →
        (env.closeResp k = none →
          getTradeByID (handleCloseSignal st sig env).1.trades t.id = some t) ∧
        (∀ r, env.closeResp k = some r →
          getTradeByID (handleCloseSignal st sig env).1.trades t.id =
            some (applyUpd { status := "closed" } t))) := by
  constructor
  · intro hc
    exact congrArg Prod.fst (closeLoop_disconnected hc (tradesToClose st sig) st)
  · intro hc hnd htick t htc k hk
    have hsub : List.Sublist (tradesToClose st sig) st.trades := by
      unfold tradesToClose getOpenTrades
      exact (List.filter_sublist _).trans (List.filter_sublist _)
    have hndc : ((tradesToClose st sig).map Trade.id).Nodup :=
      hnd.sublist (hsub.map Trade.id)
    have hmem : t ∈ st.trades := hsub.mem htc
    have hfind0 : getTradeByID st.trades t.id = some t := getTradeByID_eq_of_mem hnd hmem
    have hnf : ∀ u ∈ tradesToClose st sig, closeTradeInMT5 env u ≠ .fault := by
      intro u hu hfa
      unfold closeTradeInMT5 at hfa
      rw [hc] at hfa
      rcases hut : u.mt5Ticket with _ | ku
      · exact htick u hu hut
      · rw [hut] at hfa
        simp only [Bool.true_eq_false, if_false] at hfa
        rcases hcr : env.closeResp ku with _ | r <;>
          simp only [hcr] at hfa <;> exact CloseOutcome.noConfusion hfa
    constructor
    · intro hresp
      have herr : closeTradeInMT5 env t = .err := by
        unfold closeTradeInMT5
        simp [hc, hk, hresp]
      unfold handleCloseSignal
      rw [closeLoop_find_err htc hndc st herr, hfind0]
    · intro r hresp
      have hok : closeTradeInMT5 env t = .ok := by
        unfold closeTradeInMT5
        simp [hc, hk, hresp]
      unfold handleCloseSignal
      rw [closeLoop_find_ok htc hndc hnf st hok, hfind0]
      rfl

/-- C3 witness scenario: same state, but a reachable bridge that accepts
the close request for ticket 7. -/
def envC3w : BridgeEnv :=
  { connected := true
    closeResp := fun k => if k = 7 then some { success := true } else none }

/-- Witness for the amended C3 at a concrete input: the matching `filled`
trade is closed by a status-only update. -/
theorem C3_amended_witness :
    getTradeByID (handleCloseSignal stC3 sigC3 envC3w).1.trades 0 =
      some (applyUpd { status := "closed" } tC3) :=
  ((C3_amended_close_marks_closed_only_on_success stC3 sigC3 envC3w).2 rfl
    (by decide) (by decide) tC3 (by decide) 7 rfl).2 { success := true } rfl

/-- **C2 (confirmed)**: one reconciliation cycle maps every locally-open
trade with a non-null external ticket as the claim states: a live-position
match refreshes `filled` status, current price, floating P&L, commission
and swap from the position; otherwise a pending-order match sets `pending`;
otherwise a previously `filled` trade becomes `closed` and a previously
`pending` one becomes `cancelled`. -/
theorem C2_reconciliation_cycle_per_trade {st : SysState} {t : Trade} {k : Int}
    (positions : List PositionInfo) (orders : List OrderInfo)
    (hnd : (st.trades.map Trade.id).Nodup) (ht : t ∈ st.trades)
    (hopen : isOpenStatus t.status = true) (htk : t.mt5Ticket = some k) :
    (∀ pos, posLookup positions k = some pos →
      ∃ t', getTradeByID (syncPositionsFromMT5 st true positions orders).trades t.id =
          some t' ∧
        t'.status = "filled" ∧ t'.currentPrice = some pos.currentPrice ∧
        t'.profitLoss = pos.profit ∧ t'.commission = pos.commission ∧
        t'.swap = pos.swap) ∧
    (posLookup positions k = none → ∀ o, ordLookup orders k = some o →
      ∃ t', getTradeByID (syncPositionsFromMT5 st true positions orders).trades t.id =
          some t' ∧ t'.status = "pending") ∧
    (posLookup positions k = none → ordLookup orders k = none → t.status = "filled" →
      getTradeByID (syncPositionsFromMT5 st true positions orders).trades t.id =
        some (applyUpd { status := "closed" } t)) ∧
    (posLookup positions k = none → ordLookup orders k = none → t.status = "pending" →
      getTradeByID (syncPositionsFromMT5 st true positions orders).trades t.id =
        some (applyUpd { status := "cancelled" } t)) := by
  have hfind : getTradeByID (syncPositionsFromMT5 st true positions orders).trades t.id =
      some (syncOne positions orders t).1 := by
    unfold syncPositionsFromMT5 syncTrades
    simp only [if_true]
    rw [getTradeByID_map (fun u => (trackPreserving_syncOne positions orders u).1),
      getTradeByID_eq_of_mem hnd ht]
    rfl
  refine ⟨?_, ?_, ?_, ?_⟩
  · intro pos hp
    refine ⟨(syncOne positions orders t).1, hfind, ?_⟩
    rw [syncOne_pos hopen htk hp orders]
    simp [applyUpd, posUpd, patchOpt]
  · intro hp o ho
    refine ⟨(syncOne positions orders t).1, hfind, ?_⟩
    rw [syncOne_ord hopen htk hp ho]
    simp [applyUpd, ordUpd]
  · intro hp ho hfill
    rw [hfind, syncOne_gone_filled hfill htk hp ho]
  · intro hp ho hpend
    rw [hfind, syncOne_gone_pending hpend htk hp ho]

/-- C2 witness scenario: one `filled` trade whose ticket 1 is live on the
bridge with refreshed financials. -/
def tC2 : Trade :=
  { id := 0, tradeType := "entry", symbol := "EURUSD", orderType := "market",
    direction := "buy", volume := 1, status := "filled", mt5Ticket := some 1 }

def stC2 : SysState := { trades := [tC2], nextTradeId := 1 }

def posC2 : PositionInfo :=
  { ticket := 1, symbol := "EURUSD", currentPrice := 2, profit := 5,
    commission := 1, swap := 3 }

/-- Witness for C2 at a concrete input: the live-position arm refreshes the
row. -/
theorem C2_witness :
    ∃ t', getTradeByID (syncPositionsFromMT5 stC2 true [posC2] []).trades 0 =
        some t' ∧
      t'.status = "filled" ∧ t'.currentPrice = some posC2.currentPrice ∧
      t'.profitLoss = posC2.profit ∧ t'.commission = posC2.commission ∧
      t'.swap = posC2.swap :=
  (@C2_reconciliation_cycle_per_trade stC2 tC2 1 [posC2] []
    (by decide) (by decide) (by decide) rfl).1 posC2 rfl

/-- C4 counterexample payload: a buy with `tp2 > tp1` in the raw payload,
but both rounding to the same 8-decimal value. -/
def wC4 : TVWebhook :=
  { ticker := "EURUSD", action := "buy",
    tp1 := some (1 + 1 / 1000000000), tp2 := some (1 + 4 / 1000000000) }

/-- **C4** (counterexample): the ordering check runs on values already
rounded to 8 decimal places, so this buy payload with raw `tp2 > tp1` is
nevertheless rejected (`round8 tp2 = round8 tp1`), refuting "all other
orderings of tp1/tp2 pass this check". -/
theorem C4_counterexample_rounding_collapse :
    (1 : ℚ) + 1 / 1000000000 < 1 + 4 / 1000000000 ∧
      (parseTradingViewWebhook wC4).isOk = false := by
  constructor
  · norm_num
  · with_unfolding_all decide

theorem validatePrice_pos {a : ℚ} (h0 : 0 < a) (hc : a ≤ maxDecimalPrice) :
    validatePrice (some a) = .ok (some (round8 a)) := by
  unfold validatePrice
  simp only
  rw [if_neg (not_le.2 h0), if_neg (not_lt.2 hc)]

/-- **C4 (amended)**: in both payload formats, when tp1 and tp2 are both
present, positive and within the storage ceiling — and at most
`int64SafePrice`, the region on which the Go rounding expression
`int(v*1e8+0.5)` does not overflow `int64` and the floor model of `round8`
is exact — the direction-relative ordering check compares the values after
rounding to 8 decimal places (the pipe format stores the rounded values, so
its check is stated on those): a buy payload fails normalization exactly
when `round8 tp2 ≤ round8 tp1`, a sell payload exactly when
`round8 tp1 ≤ round8 tp2` — so raw orderings that collapse under rounding
are also rejected, and all other orderings pass.  Above `int64SafePrice`
the Go conversion's result is implementation-defined and nothing is
asserted. -/
theorem C4_amended_tp_ordering_on_rounded_values :
    (∀ (w : TVWebhook) (pe pp psl ptp : Option ℚ) (a b : ℚ),
      ¬ w.ticker = "" →
      (w.action = "buy" ∨ w.action = "sell") →
      validatePrice w.entry = .ok pe →
      validatePrice w.price = .ok pp →
      validatePrice w.stopLoss = .ok psl →
      validatePrice w.takeProfit = .ok ptp →
      w.tp1 = some a → 0 < a → a ≤ maxDecimalPrice → a ≤ int64SafePrice →
      w.tp2 = some b → 0 < b → b ≤ maxDecimalPrice → b ≤ int64SafePrice →
      (w.action = "buy" →
        ((parseTradingViewWebhook w).isOk = false ↔ round8 b ≤ round8 a)) ∧
      (w.action = "sell" →
        ((parseTradingViewWebhook w).isOk = false ↔ round8 a ≤ round8 b))) ∧
    (∀ (data p0 p1 p2 p3 p4 p5 p6 p7 : String) (e0 s0 : Option ℚ) (a b : ℚ),
      (data.trim).splitOn ("|") = [p0, p1, p2, p3, p4, p5, p6, p7] →
      ¬ p0.trim = "" →
      (p1.trim = "buy" ∨ p1.trim = "sell") →
      parseFloatOpt (p2.trim) = .ok e0 →
      parseFloatOpt (p3.trim) = .ok s0 →
      parseFloatOpt (p4.trim) = .ok (some a) →
      parseFloatOpt (p5.trim) = .ok (some b) →
      a ≤ int64SafePrice → b ≤ int64SafePrice →
      (p1.trim = "buy" → ((parseSimpleFormat data).isOk = false ↔ b ≤ a)) ∧
      (p1.trim = "sell" → ((parseSimpleFormat data).isOk = false ↔ a ≤ b))) := by
  constructor
  · intro w pe pp psl ptp a b hticker hact hentry hprice hsl htp htp1 ha hacap hasafe htp2
      hb hbcap hbsafe
    have hne : ¬ w.action = "" := by
      rcases hact with h | h <;> simp [h]
    have hvalid : ¬ (w.action ≠ "buy" ∧ w.action ≠ "sell" ∧ w.action ≠ "close") := by
      rcases hact with h | h <;> simp [h]
    have h1 : validatePrice w.tp1 = .ok (some (round8 a)) := by
      rw [htp1]
      exact validatePrice_pos ha hacap
    have h2 : validatePrice w.tp2 = .ok (some (round8 b)) := by
      rw [htp2]
      exact validatePrice_pos hb hbcap
    unfold parseTradingViewWebhook
    rw [if_neg hticker, if_neg hne, if_neg hvalid]
    rcases hev : w.entry with _ | ev
    all_goals
      rw [hev] at hentry
      simp only [hev, hentry, hprice, hsl, htp, h1, h2, bind, Except.bind]
      constructor
      · intro hbuy
        by_cases hle : round8 b ≤ round8 a
        · rw [if_pos ⟨hbuy, hle⟩]
          simp [Except.isOk, Except.toBool, hle]
        · rw [if_neg fun hx => hle hx.2]
          rw [if_neg fun hx => by rw [hbuy] at hx; exact absurd hx.1 (by decide)]
          simp [Except.isOk, Except.toBool, hle]
      · intro hsell
        have hnb : ¬ (w.action = "buy" ∧ round8 b ≤ round8 a) := fun hx => by
          rw [hsell] at hx
          exact absurd hx.1 (by decide)
        rw [if_neg hnb]
        by_cases hle : round8 a ≤ round8 b
        · rw [if_pos ⟨hsell, hle⟩]
          simp [Except.isOk, Except.toBool, hle]
        · rw [if_neg fun hx => hle hx.2]
          simp [Except.isOk, Except.toBool, hle]
  · intro data p0 p1 p2 p3 p4 p5 p6 p7 e0 s0 a b hsplit ht0 hact he hs h4 h5 hasafe hbsafe
    have hne : ¬ p1.trim = "" := by
      rcases hact with h | h <;> simp [h]
    have hvalid : ¬ (p1.trim ≠ "buy" ∧ p1.trim ≠ "sell" ∧ p1.trim ≠ "close") := by
      rcases hact with h | h <;> simp [h]
    unfold parseSimpleFormat
    simp only [hsplit]
    rw [if_neg ht0, if_neg hne, if_neg hvalid]
    simp only [he, hs, h4, h5, bind, Except.bind]
    constructor
    · intro hbuy
      by_cases hle : b ≤ a
      · rw [if_pos ⟨hbuy, hle⟩]
        simp [Except.isOk, Except.toBool, hle]
      · rw [if_neg fun hx => hle hx.2]
        rw [if_neg fun hx => by rw [hbuy] at hx; exact absurd hx.1 (by decide)]
        simp [Except.isOk, Except.toBool, hle]
    · intro hsell
      have hnb : ¬ (p1.trim = "buy" ∧ b ≤ a) := fun hx => by
        rw [hsell] at hx
        exact absurd hx.1 (by decide)
      rw [if_neg hnb]
      by_cases hle : a ≤ b
      · rw [if_pos ⟨hsell, hle⟩]
        simp [Except.isOk, Except.toBool, hle]
      · rw [if_neg fun hx => hle hx.2]
        simp [Except.isOk, Except.toBool, hle]

/-- C4 witness payload: a valid buy ordering (`tp2 > tp1`, distinct after
rounding) passes normalization. -/
def wC4w : TVWebhook :=
  { ticker := "EURUSD", action := "buy", tp1 := some 1, tp2 := some 2 }

/-- Witness for the amended C4 at a concrete input. -/
theorem C4_amended_witness : (parseTradingViewWebhook wC4w).isOk = true := by
  have h := (C4_amended_tp_ordering_on_rounded_values).1 wC4w none none none none 1 2
    (by decide) (Or.inl rfl) rfl rfl rfl rfl rfl (by norm_num)
    (by norm_num [maxDecimalPrice]) (by norm_num [int64SafePrice]) rfl (by norm_num)
    (by norm_num [maxDecimalPrice]) (by norm_num [int64SafePrice])
  have h2 := h.1 rfl
  rcases hres : (parseTradingViewWebhook wC4w).isOk with _ | _
  · exact absurd (h2.1 hres) (by norm_num [round8])
  · rfl

/-- **C6 (confirmed)**: after the processing-loop body handles a signal it
is marked processed whether or not processing returned an error (the mark
is unconditional, for any bridge behaviour `env`); every step of the
system preserves `processed = true` on every signal (no operation resets
it); and the processing snapshot (`GetUnprocessedSignals`) only ever
selects signals with `processed = false`, so a processed signal is never
selected again. -/
theorem C6_processed_flag_monotone :
    (∀ (cfg : RiskConfig) (env : BridgeEnv) (st : SysState) (sig : Signal),
      (st.signals.map Signal.id).Nodup → sig ∈ st.signals →
      getSignalByID (processOneSignal cfg env st sig) sig.id =
        some { sig with processed := true }) ∧
    (∀ s s' : SysState, Step s s' → ∀ sig ∈ s.signals, sig.processed = true →
      ∃ sig' ∈ s'.signals, sig'.id = sig.id ∧ sig'.processed = true) ∧
    (∀ st : SysState, ∀ sig ∈ getUnprocessedSignals st, sig.processed = false) := by
  refine ⟨?_, ?_, ?_⟩
  · intro cfg env st sig hnd hmem
    have hsig : (processSignal cfg env st sig).1.signals = st.signals :=
      processSignal_signals cfg env st sig
    unfold processOneSignal
    unfold getSignalByID markSignalProcessed
    rw [hsig]
    exact markSignalProcessed_find_self hnd hmem
  · intro s s' hstep sig hmem hproc
    cases hstep with
    | createSignal req st =>
      exact ⟨sig, by simp [createSignalOp, hmem], rfl, hproc⟩
    | processOne cfg env st sig0 hm0 hu0 =>
      refine ⟨if sig.id = sig0.id then { sig with processed := true } else sig, ?_, ?_, ?_⟩
      · unfold processOneSignal markSignalProcessed
        rw [processSignal_signals]
        simp only [List.mem_map]
        exact ⟨sig, hmem, by by_cases hc : sig.id = sig0.id <;> simp [hc]⟩
      · by_cases hc : sig.id = sig0.id <;> simp [hc]
      · by_cases hc : sig.id = sig0.id <;> simp [hc, hproc]
    | sync connected positions orders st =>
      refine ⟨sig, ?_, rfl, hproc⟩
      have := syncPositionsFromMT5_signals s connected positions orders
      rw [this]
      exact hmem
  · intro st sig hmem
    unfold getUnprocessedSignals at hmem
    simpa using (List.mem_filter.1 hmem).2

/-- C6 witness scenario: a signal whose processing fails (no decodable
payload, bridge down) is still marked processed. -/
def cfgC6 : RiskConfig := { enableRiskChecks := false, maxPositionSize := 10 }

def sigC6 : Signal :=
  { id := 0, source := "tradingview", symbol := "EURUSD", signalType := "buy" }

def stC6 : SysState := { signals := [sigC6] }

def envC6 : BridgeEnv := { connected := false }

/-- Witness for C6 at a concrete input: the signal is marked processed even
though processing returned an error. -/
theorem C6_witness :
    getSignalByID (processOneSignal cfgC6 envC6 stC6 sigC6) 0 =
      some { sigC6 with processed := true } :=
  (C6_processed_flag_monotone).1 cfgC6 envC6 stC6 sigC6 (by decide) (by decide)

/-- **C5 (confirmed)**: for every buy/sell signal with both TP levels set
and positive that reaches the TP stage (bridge reachable, risk check
passed, an entry response decoded, and the reported ticket not already
stored on another row — otherwise the `mt5_ticket UNIQUE` constraint fails
the fill update and processing stops before the TP stage), the tp1 and tp2
trade rows are created with volume exactly half the entry trade's volume
each, their sum equals the entry volume exactly (hence within the 1e-8
tolerance), and both reference the entry trade's id as parent trade id. -/
theorem C5_tp_legs_split_entry_volume {cfg : RiskConfig} {env : BridgeEnv} {st : SysState}
    {sig : Signal} {w : TVWebhook} {r : TradeResponse} {a b : ℚ}
    (hsrc : sig.source = "tradingview")
    (hpay : sig.payload = some w)
    (hnc : ¬ sig.signalType = "close")
    (hconn : env.connected = true)
    (hrisk : ¬ (cfg.enableRiskChecks ∧ env.riskOk = false))
    (hresp : env.entryResp = some r)
    (htp1 : sig.tp1 = some a) (ha : 0 < a)
    (htp2 : sig.tp2 = some b) (hb : 0 < b)
    (hids : IdsBelow st)
    (hfresh : ∀ t ∈ st.trades, t.mt5Ticket ≠ some r.ticket) :
    ∃ entry tp1t tp2t : Trade,
      getTradeByID (processSignal cfg env st sig).1.trades st.nextTradeId =
        some entry ∧
      getTradeByID (processSignal cfg env st sig).1.trades (st.nextTradeId + 1) =
        some tp1t ∧
      getTradeByID (processSignal cfg env st sig).1.trades (st.nextTradeId + 2) =
        some tp2t ∧
      entry.tradeType = "entry" ∧ tp1t.tradeType = "tp1" ∧ tp2t.tradeType = "tp2" ∧
      tp1t.parentTradeId = some entry.id ∧ tp2t.parentTradeId = some entry.id ∧
      entry.id = st.nextTradeId ∧
      tp1t.volume = entry.volume / 2 ∧ tp2t.volume = entry.volume / 2 ∧
      tp1t.volume + tp2t.volume = entry.volume ∧
      |tp1t.volume + tp2t.volume - entry.volume| ≤ 1 / 100000000 := by
  unfold processSignal
  rw [if_neg (by simp [hsrc])]
  simp only [hpay]
  rw [if_neg hnc]
  unfold processBuySell
  rw [if_neg (by simp [hconn]), if_neg hrisk]
  set V := calculatePositionSize cfg (w.volume.getD 0) with hV
  set C := createTrade st (entryTradeReq sig V) with hCdef
  rcases hex : executeEntryTrade env C.1 C.2 with e | stA
  · have hncE : ticketConflict C.1.trades C.2.id (entryUpd r) = false := by
      rw [hCdef]
      exact entry_no_conflict hfresh _
    exact absurd hex (executeEntryTrade_not_error hconn hresp hncE e)
  simp only [hex]
  rw [htp1, htp2, runTPLegIfSet_some_pos ha, runTPLegIfSet_some_pos hb]
  obtain ⟨u0, hnc0, hu0⟩ := executeEntryTrade_ok_shape hex
  have hCid : C.2.id = st.nextTradeId := by
    rw [hCdef]
    exact createTrade_snd_id st _
  have hA : IdsBelow stA := by
    rw [hu0]
    exact idsBelow_update (by rw [hCdef]; exact idsBelow_create hids _) _ _
  have hnA : stA.nextTradeId = st.nextTradeId + 1 := by
    rw [hu0, updateTradeStatus_nextTradeId, hCdef, createTrade_nextTradeId]
  have hfA : getTradeByID stA.trades st.nextTradeId = some (applyUpd u0 C.2) := by
    rw [hu0, hCid, updateTradeStatus_find_self (by rw [← hCid]; exact hnc0)]
    rw [hCdef, createTrade_find_new hids]
    rfl
  obtain ⟨u1, hnc1, hu1⟩ := runTPLeg_shape env.connected env.tp1PosCheck env.tp1Resp stA sig
    C.2.id ("tp1") a (V / 2)
  rw [hu1]
  set D1 := createTrade stA (tpTradeReq sig C.2.id ("tp1") a (V / 2)) with hD1def
  set st3 := updateTradeStatus D1.1 D1.2.id u1 with hst3def
  have hD1id : D1.2.id = st.nextTradeId + 1 := by
    rw [hD1def, createTrade_snd_id, hnA]
  have h3ids : IdsBelow st3 := by
    rw [hst3def]
    exact idsBelow_update (by rw [hD1def]; exact idsBelow_create hA _) _ _
  have hn3 : st3.nextTradeId = st.nextTradeId + 2 := by
    rw [hst3def, updateTradeStatus_nextTradeId, hD1def, createTrade_nextTradeId, hnA]
  have hf3a : getTradeByID st3.trades st.nextTradeId = some (applyUpd u0 C.2) := by
    rw [hst3def, updateTradeStatus_find_ne (by rw [hD1id]; omega) u1, hD1def]
    exact createTrade_find_old hfA _
  have hf3b : getTradeByID st3.trades (st.nextTradeId + 1) =
      some (applyUpd u1 D1.2) := by
    rw [hst3def, ← hD1id, updateTradeStatus_find_self hnc1, hD1def, hD1id, ← hnA,
      createTrade_find_new hA]
    rfl
  obtain ⟨u2, hnc2, hu2⟩ := runTPLeg_shape env.connected env.tp2PosCheck env.tp2Resp st3 sig
    C.2.id ("tp2") b (V / 2)
  rw [hu2]
  set D2 := createTrade st3 (tpTradeReq sig C.2.id ("tp2") b (V / 2)) with hD2def
  set st4 := updateTradeStatus D2.1 D2.2.id u2 with hst4def
  have hD2id : D2.2.id = st.nextTradeId + 2 := by
    rw [hD2def, createTrade_snd_id, hn3]
  have hf4a : getTradeByID st4.trades st.nextTradeId = some (applyUpd u0 C.2) := by
    rw [hst4def, updateTradeStatus_find_ne (by rw [hD2id]; omega) u2, hD2def]
    exact createTrade_find_old hf3a _
  have hf4b : getTradeByID st4.trades (st.nextTradeId + 1) =
      some (applyUpd u1 D1.2) := by
    rw [hst4def, updateTradeStatus_find_ne (by rw [hD2id]; omega) u2, hD2def]
    exact createTrade_find_old hf3b _
  have hf4c : getTradeByID st4.trades (st.nextTradeId + 2) =
      some (applyUpd u2 D2.2) := by
    rw [hst4def, ← hD2id, updateTradeStatus_find_self hnc2, hD2def, hD2id, ← hn3,
      createTrade_find_new h3ids]
    rfl
  refine ⟨applyUpd u0 C.2, applyUpd u1 D1.2, applyUpd u2 D2.2,
    hf4a, hf4b, hf4c, ?_, ?_, ?_, ?_, ?_, ?_, ?_, ?_, ?_, ?_⟩
  · rw [applyUpd_tradeType, hCdef]
    rfl
  · rw [applyUpd_tradeType, hD1def]
    rfl
  · rw [applyUpd_tradeType, hD2def]
    rfl
  · rw [applyUpd_parentTradeId, applyUpd_id, hD1def]
    rfl
  · rw [applyUpd_parentTradeId, applyUpd_id, hD2def]
    rfl
  · rw [applyUpd_id, hCid]
  · rw [applyUpd_volume, applyUpd_volume, hD1def, hCdef]
    rfl
  · rw [applyUpd_volume, applyUpd_volume, hD2def, hCdef]
    rfl
  · rw [applyUpd_volume, applyUpd_volume, applyUpd_volume, hD1def, hD2def, hCdef]
    show V / 2 + V / 2 = V
    ring
  · rw [applyUpd_volume, applyUpd_volume, applyUpd_volume, hD1def, hD2def, hCdef]
    show |V / 2 + V / 2 - V| ≤ 1 / 100000000
    have hz : V / 2 + V / 2 - V = 0 := by ring
    rw [hz, abs_zero]
    norm_num

/-- C5 witness scenario: a happy-path buy signal with both TP levels. -/
def cfgC5 : RiskConfig := { enableRiskChecks := false, maxPositionSize := 10 }

def wC5 : TVWebhook :=
  { ticker := "EURUSD", action := "buy", entry := some 1, volume := some 2,
    tp1 := some 2, tp2 := some 3 }

def sigC5 : Signal :=
  { id := 0, source := "tradingview", symbol := "EURUSD", signalType := "buy",
    price := some 1, tp1 := some 2, tp2 := some 3, payload := some wC5 }

def envC5 : BridgeEnv :=
  { connected := true, entryResp := some { success := true, ticket := 42, price := 1 },
    tp1PosCheck := true, tp1Resp := some { success := true },
    tp2PosCheck := true, tp2Resp := some { success := true } }

def stC5 : SysState := { signals := [sigC5] }

/-- Witness for C5 at a concrete input. -/
theorem C5_witness :
    ∃ entry tp1t tp2t : Trade,
      getTradeByID (processSignal cfgC5 envC5 stC5 sigC5).1.trades 0 = some entry ∧
      getTradeByID (processSignal cfgC5 envC5 stC5 sigC5).1.trades (0 + 1) =
        some tp1t ∧
      getTradeByID (processSignal cfgC5 envC5 stC5 sigC5).1.trades (0 + 2) =
        some tp2t ∧
      entry.tradeType = "entry" ∧ tp1t.tradeType = "tp1" ∧ tp2t.tradeType = "tp2" ∧
      tp1t.parentTradeId = some entry.id ∧ tp2t.parentTradeId = some entry.id ∧
      entry.id = 0 ∧
      tp1t.volume = entry.volume / 2 ∧ tp2t.volume = entry.volume / 2 ∧
      tp1t.volume + tp2t.volume = entry.volume ∧
      |tp1t.volume + tp2t.volume - entry.volume| ≤ 1 / 100000000 :=
  C5_tp_legs_split_entry_volume rfl rfl (by decide) rfl (by simp [cfgC5]) rfl rfl
    (by norm_num) rfl (by norm_num) (by intro t ht; cases ht) (by intro t ht; cases ht)

/-! ### Claim C8: external-ticket uniqueness among non-terminal trades -/

/-- C8 scenario: buy webhook with one TP level. -/
def wC8 : TVWebhook :=
  { ticker := "EURUSD", action := "buy", entry := some 1, volume := some 2,
    tp1 := some 2 }

/-- C8 scenario: the signal-creation request stored for `wC8`. -/
def reqC8 : CreateSignalRequest :=
  { source := "tradingview", symbol := "EURUSD", signalType := "buy",
    price := some 1, tp1 := some 2, payload := some wC8 }

/-- C8 scenario: the stored signal (id 0, unprocessed). -/
def sigC8 : Signal :=
  { id := 0, source := "tradingview", symbol := "EURUSD", signalType := "buy",
    price := some 1, tp1 := some 2, payload := some wC8 }

/-- C8 scenario: risk checks disabled, max position size 10. -/
def cfgC8 : RiskConfig := { enableRiskChecks := false, maxPositionSize := 10 }

/-- C8 scenario: the bridge accepts the entry with ticket 42 and accepts the
TP1 modification. -/
def envC8 : BridgeEnv :=
  { connected := true,
    entryResp := some { success := true, ticket := 42, price := 1 },
    tp1PosCheck := true, tp1Resp := some { success := true } }

/-- C8 scenario: store the signal, then process it. -/
def stC8 : SysState :=
  processOneSignal cfgC8 envC8 (createSignalOp initState reqC8) sigC8

/-- The entry trade row of the C8 witness scenario after processing: the
bridge accepted the entry with ticket 42.  (The TP leg's ticket-copying
update then violates the `mt5_ticket UNIQUE` constraint — the parent row
carries 42 — so the TP row ends `rejected` with no ticket.) -/
def entryC8 : Trade :=
  { id := 0, signalId := some 0, parentSignalId := some 0, parentTradeId := none,
    tradeType := "entry", symbol := "EURUSD", orderType := "market",
    direction := "buy", volume := 2, entryPrice := some 1, tp1 := some 2,
    status := "filled", mt5Ticket := some 42 }

/-- **C8 (confirmed)**: at every reachable state — under any bridge
behaviour — a non-null external ticket identifies at most one trade row
(`TicketUniqueInv`), in particular at most one row in non-terminal status.
`executeTPTrade` attempts to copy the parent's ticket onto each TP leg, but
that `UPDATE` fails the schema's `mt5_ticket BIGINT UNIQUE` constraint
whenever another row (the parent itself) carries the ticket, so the leg is
marked `rejected` instead and uniqueness is never violated. -/
theorem C8_ticket_unique_among_open_trades {st : SysState}
    (hr : ReachP anyBridge st) :
    ∀ t1 ∈ st.trades, ∀ t2 ∈ st.trades,
      isOpenStatus t1.status = true → isOpenStatus t2.status = true →
      ∀ k : Int, t1.mt5Ticket = some k → t2.mt5Ticket = some k → t1.id = t2.id :=
  fun t1 h1 t2 h2 _ _ k hk1 hk2 => ticketUnique_reach hr t1 h1 t2 h2 k hk1 hk2

theorem C8_witness : entryC8.id = entryC8.id :=
  C8_ticket_unique_among_open_trades
    (show ReachP anyBridge stC8 from
      ReachP.processOne cfgC8 envC8 sigC8 (ReachP.createSignal reqC8 ReachP.init)
        (by with_unfolding_all decide) rfl trivial)
    entryC8 (by with_unfolding_all decide) entryC8 (by with_unfolding_all decide)
    (by decide) (by decide) 42 rfl rfl

/-! ### Claim C9: filled trades and the nil-ticket dereference on close -/

/-- C9 scenario: buy webhook with no TP levels. -/
def wC9 : TVWebhook :=
  { ticker := "EURUSD", action := "buy", entry := some 1, volume := some 2 }

/-- C9 scenario: the signal-creation request stored for `wC9`. -/
def reqC9 : CreateSignalRequest :=
  { source := "tradingview", symbol := "EURUSD", signalType := "buy",
    price := some 1, payload := some wC9 }

/-- C9 scenario: the stored signal (id 0, unprocessed). -/
def sigC9 : Signal :=
  { id := 0, source := "tradingview", symbol := "EURUSD", signalType := "buy",
    price := some 1, payload := some wC9 }

/-- C9 scenario: risk checks disabled. -/
def cfgC9 : RiskConfig := { enableRiskChecks := false, maxPositionSize := 10 }

/-- C9 scenario: the bridge reports success with ticket 0.  The Go code only
stores a ticket when it is non-zero, yet still marks the trade filled. -/
def envC9 : BridgeEnv :=
  { connected := true,
    entryResp := some { success := true, ticket := 0, price := 1 } }

/-- C9 scenario: store the signal, then process it. -/
def stC9 : SysState :=
  processOneSignal cfgC9 envC9 (createSignalOp initState reqC9) sigC9

/-- C9 scenario: a later close signal for the same symbol. -/
def sigC9close : Signal :=
  { id := 1, source := "tradingview", symbol := "EURUSD", signalType := "close" }

/-- C9: the claimed safety property is false.  `stC9` is reachable with no
assumption on the bridge (success response with ticket 0), it holds a trade
in status `filled` whose `mt5Ticket` is `none`, and handling a close signal
for that symbol hits the nil-ticket dereference in `closeTradeInMT5` (the
`Bool` component of `handleCloseSignal` reports the fault). -/
theorem C9_counterexample_filled_with_nil_ticket :
    ReachP anyBridge stC9 ∧
    ¬ (∀ t ∈ stC9.trades, t.status = "filled" → t.mt5Ticket.isSome) ∧
    (handleCloseSignal stC9 sigC9close envC9).2 = true := by
  refine ⟨?_, ?_, ?_⟩
  · exact ReachP.processOne cfgC9 envC9 sigC9
      (ReachP.createSignal reqC9 ReachP.init)
      (by with_unfolding_all decide) rfl trivial
  · with_unfolding_all decide
  · with_unfolding_all decide

/-- C9 (amended): under the assumption that a successful bridge entry always
reports a non-zero ticket, the claim holds at every reachable state: each
`filled` trade carries an external ticket, and close-signal handling never
reaches the nil-ticket dereference (`handleCloseSignal` never reports a
fault, for any close signal and any bridge answers). -/
theorem C9_amended_no_nil_ticket_fault {st : SysState}
    (hr : ReachP nonzeroTicketBridge st) :
    (∀ t ∈ st.trades, t.status = "filled" → t.mt5Ticket.isSome) ∧
    ∀ sig env, (handleCloseSignal st sig env).2 = false := by
  have hf := filledInv_reach hr
  refine ⟨hf, ?_⟩
  intro sig env
  unfold handleCloseSignal
  apply closeLoop_no_fault
  intro u hu hfa
  unfold tradesToClose getOpenTrades at hu
  rcases List.mem_filter.1 hu with ⟨hu1, hcond⟩
  rcases List.mem_filter.1 hu1 with ⟨humem, _⟩
  have hufill : u.status = "filled" := by
    rw [Bool.and_eq_true] at hcond
    exact of_decide_eq_true hcond.2
  have htick := hf u humem hufill
  rcases hut : u.mt5Ticket with _ | k
  · rw [hut] at htick; simp at htick
  · by_cases hc : env.connected = false
    · simp [closeTradeInMT5, hc] at hfa
    · rcases hcr : env.closeResp k with _ | r <;>
        simp [closeTradeInMT5, hc, hut, hcr] at hfa

/-- C9 witness scenario: same signal, bridge reports ticket 42. -/
def envC9w : BridgeEnv :=
  { connected := true,
    entryResp := some { success := true, ticket := 42, price := 1 } }

/-- C9 witness scenario: state after processing under `envC9w`. -/
def stC9w : SysState :=
  processOneSignal cfgC9 envC9w (createSignalOp initState reqC9) sigC9

theorem C9_amended_witness :
    (∀ t ∈ stC9w.trades, t.status = "filled" → t.mt5Ticket.isSome) ∧
    ∀ sig env, (handleCloseSignal stC9w sig env).2 = false :=
  C9_amended_no_nil_ticket_fault
    (ReachP.processOne cfgC9 envC9w sigC9 (ReachP.createSignal reqC9 ReachP.init)
      (by with_unfolding_all decide) rfl
      (by intro r hr hs; cases hr; decide))
